import Mathlib

/-!
Verification development for the `puddygeneral` hex-grid wargame.

This file gives a shallow embedding, in Lean 4, of the parts of the game
engine that the specification's testable properties talk about:

* the unit-type catalog and attack/defense value selection
  (`src/js/units/unitTypes.js`),
* the stochastic battle resolver (`src/js/combat/battleResolver.js`),
* the rebuild / economy system (`src/js/units/rebuild.js`),
* terrain/edge movement costs and the movement search of
  `GameState.getValidMovementHexes` (`src/js/core/gameState.js`),
* defensive fire (`GameState.executeDefensiveFire`),
* JSON serialization round-trips (`GameState.toJSON` / `fromJSON` and the
  corresponding `Unit`, `HexCell`, `HexMap` functions).

Modelling conventions:

* JavaScript numbers are modelled as exact rationals (`ℚ`); integer-valued
  quantities use `ℤ`/`ℕ`.  `Math.floor`/`Math.ceil` become `Int.floor` /
  `Int.ceil`; `Math.round x` is `⌊x + 1/2⌋` (JS rounds half toward +∞).
* The random draws consumed by a battle are passed in explicitly: the two
  Box-Muller z-scores used for damage variance (`gaussianRandom mean σ`
  becomes `mean + z * σ`) and the uniform `[0,1)` draw consumed by a rout
  check.  Theorems quantify over these draws.
* JavaScript `Map` objects keyed by `hex.key` (the string `"q,r"`, which is
  in bijection with the coordinate pair) are modelled as association lists
  keyed by the `Hex` value itself.
* Nullable values become `Option`; JS truthiness tests on strings/options
  (`x || d`) are modelled explicitly where they occur.
-/

namespace PuddyGeneral

/-! ### Terrain and edge catalog (`src/unnamed/part_007`) -/

/-- The `TerrainType` enum. -/
inductive Terrain where
  | grass | woods | castle | mountain | hill | water | river
  deriving DecidableEq, Repr

/-- The `EdgeFeature` enum (`none`/`river`/`road`/`bridge`). -/
inductive EdgeFeature where
  | none | river | road | bridge
  deriving DecidableEq, Repr

/-- The `movementCost` entry of `TERRAIN_PROPERTIES`: a finite cost, the
special marker `'all'` used for river hexes, or `Infinity`. -/
inductive TerrainMoveCost where
  | cost (c : ℚ) | all | infinite
  deriving DecidableEq, Repr

/-- `TERRAIN_PROPERTIES[t].movementCost`. -/
def terrainMovementCost : Terrain → TerrainMoveCost
  | .grass => .cost 1
  | .woods => .cost 2
  | .castle => .cost 1
  | .mountain => .infinite
  | .hill => .cost 2
  | .water => .infinite
  | .river => .all

/-- `TERRAIN_PROPERTIES[t].impassable` (set only for mountain and water). -/
def terrainImpassable : Terrain → Bool
  | .mountain => true
  | .water => true
  | _ => false

/-! ### Unit-type catalog (`src/js/units/unitTypes.js`) -/

/-- The `TargetType` enum. -/
inductive TargetType where
  | soft | hard
  deriving DecidableEq, Repr

/-- The `UnitClass` enum. -/
inductive UnitClass where
  | infantry | ranged | cavalry | siege
  deriving DecidableEq, Repr

/-- The ids of the three canonical entries of `UNIT_TYPES`.  Every `Unit`
carries a valid type id: the JS `Unit` constructor throws on any other id. -/
inductive UnitTypeId where
  | infantry | trebuchet | cavalry
  deriving DecidableEq, Repr

/-- A unit-type template from `UNIT_TYPES` (the stats the engine reads). -/
structure UnitType where
  id : UnitTypeId
  unitClass : UnitClass
  cost : ℚ
  maxAmmo : Option ℤ
  movement : ℚ
  spotting : ℕ
  range : ℕ
  initiative : ℚ
  softAttack : ℚ
  hardAttack : ℚ
  groundDefense : ℚ
  closeDefense : ℚ
  targetType : TargetType
  deriving DecidableEq, Repr

/-- `UNIT_TYPES` / `getUnitType`, total because `UnitTypeId` enumerates the
catalog (the JS function returns `null` only for ids outside the catalog). -/
def getUnitType : UnitTypeId → UnitType
  | .infantry =>
    { id := .infantry, unitClass := .infantry, cost := 60, maxAmmo := Option.none
      movement := 3, spotting := 2, range := 0, initiative := 1
      softAttack := 6, hardAttack := 2, groundDefense := 6, closeDefense := 8
      targetType := .soft }
  | .trebuchet =>
    { id := .trebuchet, unitClass := .siege, cost := 84, maxAmmo := some 9
      movement := 2, spotting := 1, range := 2, initiative := 2
      softAttack := 11, hardAttack := 5, groundDefense := 2, closeDefense := 0
      targetType := .soft }
  | .cavalry =>
    { id := .cavalry, unitClass := .cavalry, cost := 120, maxAmmo := Option.none
      movement := 5, spotting := 2, range := 0, initiative := 6
      softAttack := 3, hardAttack := 7, groundDefense := 8, closeDefense := 2
      targetType := .hard }

/-- `getAttackValue`: hard attack against hard targets, else soft attack. -/
def getAttackValue (attackerType defenderType : UnitType) : ℚ :=
  if defenderType.targetType = TargetType.hard then attackerType.hardAttack
  else attackerType.softAttack

/-- `getDefenseValue`: close defense in close terrain, but only when the
type's close defense is positive; otherwise ground defense. -/
def getDefenseValue (defenderType : UnitType) (closeTerrain : Bool) : ℚ :=
  if closeTerrain ∧ defenderType.closeDefense > 0 then defenderType.closeDefense
  else defenderType.groundDefense

/-! ### Hex coordinates (`src/unnamed/part_009`) -/

/-- An axial hex coordinate. -/
structure Hex where
  q : ℤ
  r : ℤ
  deriving DecidableEq, Repr

/-- `HEX_DIRECTIONS`: flat-top axial offsets, clockwise from East. -/
def hexDirection : Fin 6 → ℤ × ℤ
  | 0 => (1, 0)
  | 1 => (1, -1)
  | 2 => (0, -1)
  | 3 => (-1, 0)
  | 4 => (-1, 1)
  | 5 => (0, 1)

/-- `Hex.neighbor(direction)`. -/
def Hex.neighbor (h : Hex) (dir : Fin 6) : Hex :=
  ⟨h.q + (hexDirection dir).1, h.r + (hexDirection dir).2⟩

/-! ### Units (`src/unnamed/part_005`) -/

/-- A `Unit` instance: mutable per-unit state plus its type id. -/
structure Unit where
  id : String
  typeId : UnitTypeId
  playerId : ℕ
  hex : Hex
  strength : ℚ
  ammo : Option ℤ
  experience : ℚ
  entrenchment : ℚ
  suppression : ℚ
  movementRemaining : ℚ
  hasAttacked : Bool
  hasMoved : Bool
  turnsStationary : ℕ
  lastHex : Hex
  deriving DecidableEq, Repr

/-- The `Unit` constructor `new Unit(typeId, playerId, hex)` with a given id
(the JS constructor draws a fresh UUID, which we pass in). -/
def mkUnit (uid : String) (typeId : UnitTypeId) (playerId : ℕ) (hex : Hex) : Unit :=
  { id := uid, typeId := typeId, playerId := playerId, hex := hex
    strength := 10, ammo := (getUnitType typeId).maxAmmo
    experience := 0, entrenchment := 0, suppression := 0
    movementRemaining := (getUnitType typeId).movement
    hasAttacked := false, hasMoved := false
    turnsStationary := 0, lastHex := hex }

/-- `unit.getType()`. -/
def Unit.getType (u : Unit) : UnitType := getUnitType u.typeId

/-- `unit.canMove()`. -/
def Unit.canMove (u : Unit) : Bool :=
  !u.hasMoved && u.movementRemaining > 0 && u.strength > 0

/-- `unit.hasAmmo()`: `null` ammo means unlimited. -/
def Unit.hasAmmo (u : Unit) : Bool :=
  match u.ammo with
  | Option.none => true
  | some a => a > 0

/-! ### Battle resolver (`src/js/combat/battleResolver.js`) -/

/-- `BATTLE_CONFIG.BASE_TOTAL_DAMAGE`. -/
def BASE_TOTAL_DAMAGE : ℚ := 7

/-- `BATTLE_CONFIG.DAMAGE_RATIO_SENSITIVITY`. -/
def DAMAGE_RATIO_SENSITIVITY : ℚ := 0.3

/-- `BATTLE_CONFIG.MIN_DAMAGE_SHARE`. -/
def MIN_DAMAGE_SHARE : ℚ := 0.1

/-- `BATTLE_CONFIG.MAX_DAMAGE_SHARE`. -/
def MAX_DAMAGE_SHARE : ℚ := 0.9

/-- `BATTLE_CONFIG.DAMAGE_STD_DEV`. -/
def DAMAGE_STD_DEV : ℚ := 1.25

/-- `BATTLE_CONFIG.MIN_DAMAGE`. -/
def MIN_DAMAGE : ℚ := 0

/-- `BATTLE_CONFIG.MAX_DAMAGE`. -/
def MAX_DAMAGE : ℚ := 10

/-- `BATTLE_CONFIG.ROUT_THRESHOLD`. -/
def ROUT_THRESHOLD : ℚ := 3.0

/-- The options record accepted by `resolveBattle` (absent JS fields are
`false`). -/
structure BattleOptions where
  closeTerrain : Bool
  surpriseAttack : Bool
  riverAttack : Bool
  rangedAttack : Bool
  deriving DecidableEq, Repr

/-- The random draws one call of `resolveBattle` consumes: the Box-Muller
z-scores of the two `applyDamageVariance` calls (so
`gaussianRandom mean σ = mean + z * σ`), and the uniform `Math.random()`
value read by whichever rout check fires (at most one of the two branches
draws). -/
structure BattleRng where
  zDefender : ℚ
  zAttacker : ℚ
  routRoll : ℚ
  deriving DecidableEq, Repr

/-- `Math.round`: JS rounds half toward positive infinity. -/
def jsRound (x : ℚ) : ℤ := ⌊x + 1 / 2⌋

/-- The `percentUsed` ratio computed in `calculateAttackerPower`: movement
used over maximum movement (0 when the type has no movement). -/
def percentMovementUsed (attacker : Unit) : ℚ :=
  let maxMovement := attacker.getType.movement
  let movementUsed := maxMovement - attacker.movementRemaining
  if maxMovement > 0 then movementUsed / maxMovement else 0

/-- The movement-fatigue tier count computed in `calculateAttackerPower`:
each 33% of movement used is one tier, capped at 2. -/
def fatigueTiers (attacker : Unit) : ℤ :=
  min 2 ⌊percentMovementUsed attacker / 0.33⌋

/-- The strength multiplier computed in `calculateAttackerPower`: fatigue
tiers cost 20% each, surprise another 20%, river attack another 30%, with a
floor of 0.2. -/
def attackerStrengthMultiplier (attacker : Unit) (options : BattleOptions) : ℚ :=
  let m0 : ℚ := 1 - (fatigueTiers attacker : ℚ) * 0.20
  let m1 : ℚ := if options.surpriseAttack then m0 - 0.20 else m0
  let m2 : ℚ := if options.riverAttack then m1 - 0.30 else m1
  max 0.2 m2

/-- The effective initiative computed in `calculateAttackerPower`: the type's
initiative, zeroed by a surprise attack and by a river attack. -/
def effectiveInitiative (attacker : Unit) (options : BattleOptions) : ℚ :=
  let i0 := attacker.getType.initiative
  let i1 := if options.surpriseAttack then 0 else i0
  if options.riverAttack then 0 else i1

/-- `calculateAttackerPower`. -/
def calculateAttackerPower (attacker defender : Unit) (options : BattleOptions) : ℚ :=
  let attackValue := getAttackValue attacker.getType defender.getType
  let effectiveStrength := (attacker.strength / 2) * attackerStrengthMultiplier attacker options
  attackValue + effectiveStrength + effectiveInitiative attacker options + attacker.experience

/-- `calculateDefenderPower`. -/
def calculateDefenderPower (defender : Unit) (closeTerrain : Bool) : ℚ :=
  getDefenseValue defender.getType closeTerrain
    + defender.strength / 2 + defender.entrenchment + defender.experience

/-- `calculateDamageDistribution`, returning the attacker's share (the
defender's share is its complement). -/
def calculateDamageDistribution (powerRatio : ℚ) : ℚ :=
  max MIN_DAMAGE_SHARE
    (min MAX_DAMAGE_SHARE (0.5 + DAMAGE_RATIO_SENSITIVITY * (powerRatio - 1)))

/-- `clampDamage`: clamp to `[0, min(maxStrength, 10)]`. -/
def clampDamage (damage maxStrength : ℚ) : ℚ :=
  max MIN_DAMAGE (min damage (min maxStrength MAX_DAMAGE))

/-- The power ratio computed in `resolveBattle`: `attacker / defender`, with
a non-positive defender power treated as the rout threshold. -/
def battlePowerRatio (attacker defender : Unit) (options : BattleOptions) : ℚ :=
  let attackerPower := calculateAttackerPower attacker defender options
  let defenderPower := calculateDefenderPower defender options.closeTerrain
  if defenderPower > 0 then attackerPower / defenderPower else ROUT_THRESHOLD

/-- The rout chance `(powerRatio - ROUT_THRESHOLD) / 4` used when the
attacker is vastly superior (`powerRatio ≥ 3`). -/
def routChanceVsDefender (powerRatio : ℚ) : ℚ :=
  (powerRatio - ROUT_THRESHOLD) / 4

/-- The rout chance `(1/powerRatio - ROUT_THRESHOLD) / 4` used when the
defender is vastly superior (`powerRatio ≤ 1/3`). -/
def routChanceVsAttacker (powerRatio : ℚ) : ℚ :=
  (1 / powerRatio - ROUT_THRESHOLD) / 4

/-- The raw damages of `resolveBattle` up to (and including) the
ranged-attack adjustment, before the rout checks: the pair is
`(defenderDamageRaw, attackerDamageRaw)`. -/
def preRoutDamages (attacker defender : Unit) (options : BattleOptions)
    (rng : BattleRng) : ℚ × ℚ :=
  let attackerStrengthBefore := attacker.strength
  let defenderStrengthBefore := defender.strength
  let powerRatio := battlePowerRatio attacker defender options
  let attackerShare := calculateDamageDistribution powerRatio
  let defenderShare := 1 - attackerShare
  let combinedStrength := attackerStrengthBefore + defenderStrengthBefore
  let maxTotalDamage := combinedStrength * 0.75
  let effectiveTotalDamage := min BASE_TOTAL_DAMAGE maxTotalDamage
  let baseDefenderDamage := effectiveTotalDamage * attackerShare
  let baseAttackerDamage := effectiveTotalDamage * defenderShare
  let defenderDamageRaw := baseDefenderDamage + rng.zDefender * DAMAGE_STD_DEV
  let attackerDamageRaw := baseAttackerDamage + rng.zAttacker * DAMAGE_STD_DEV
  if options.rangedAttack then
    let missingStrengthPercent := (10 - attackerStrengthBefore) / 10
    let strengthPenalty := missingStrengthPercent * 0.5
    (defenderDamageRaw * (1 - strengthPenalty), 0)
  else
    (defenderDamageRaw, attackerDamageRaw)

/-- The rout checks of `resolveBattle`, mapping the pre-rout damages to the
final raw (unclamped) pair `(defenderDamageRaw, attackerDamageRaw)`.  When
`powerRatio = 0` the JS expression `1/powerRatio` is `Infinity`, so the
rout roll `Math.random() < Infinity` always succeeds; `ℚ` has `1/0 = 0`,
so that case is spelled out. -/
def applyRoutChecks (attacker defender : Unit) (powerRatio : ℚ)
    (rng : BattleRng) (damages : ℚ × ℚ) : ℚ × ℚ :=
  if powerRatio ≥ ROUT_THRESHOLD then
    if rng.routRoll < routChanceVsDefender powerRatio then
      (defender.strength, 0)
    else damages
  else if powerRatio ≤ 1 / ROUT_THRESHOLD then
    if powerRatio = 0 then (0, attacker.strength)
    else if rng.routRoll < routChanceVsAttacker powerRatio then
      (0, attacker.strength)
    else damages
  else damages

/-- The record returned by `resolveBattle`. -/
structure BattleResult where
  attackerDamage : ℤ
  defenderDamage : ℤ
  attackerDamageRaw : ℚ
  defenderDamageRaw : ℚ
  attackerPower : ℚ
  defenderPower : ℚ
  powerRatio : ℚ
  closeTerrain : Bool
  attackerDestroyed : Bool
  defenderDestroyed : Bool
  attackerStrengthBefore : ℚ
  defenderStrengthBefore : ℚ
  attackerStrengthAfter : ℚ
  defenderStrengthAfter : ℚ
  deriving DecidableEq, Repr

/-- `resolveBattle(attacker, defender, options)`, with the consumed random
draws passed in through `rng`. -/
def resolveBattle (attacker defender : Unit) (options : BattleOptions)
    (rng : BattleRng) : BattleResult :=
  let closeTerrain := options.closeTerrain
  let attackerStrengthBefore := attacker.strength
  let defenderStrengthBefore := defender.strength
  let attackerPower := calculateAttackerPower attacker defender options
  let defenderPower := calculateDefenderPower defender closeTerrain
  let powerRatio := battlePowerRatio attacker defender options
  let damages :=
    applyRoutChecks attacker defender powerRatio rng
      (preRoutDamages attacker defender options rng)
  let defenderDamageRaw := clampDamage damages.1 defenderStrengthBefore
  let attackerDamageRaw := clampDamage damages.2 attackerStrengthBefore
  let defenderDamage := jsRound defenderDamageRaw
  let attackerDamage := jsRound attackerDamageRaw
  let attackerStrengthAfter := max 0 (attackerStrengthBefore - (attackerDamage : ℚ))
  let defenderStrengthAfter := max 0 (defenderStrengthBefore - (defenderDamage : ℚ))
  { attackerDamage := attackerDamage
    defenderDamage := defenderDamage
    attackerDamageRaw := attackerDamageRaw
    defenderDamageRaw := defenderDamageRaw
    attackerPower := attackerPower
    defenderPower := defenderPower
    powerRatio := powerRatio
    closeTerrain := closeTerrain
    attackerDestroyed := decide (attackerStrengthAfter ≤ 0)
    defenderDestroyed := decide (defenderStrengthAfter ≤ 0)
    attackerStrengthBefore := attackerStrengthBefore
    defenderStrengthBefore := defenderStrengthBefore
    attackerStrengthAfter := attackerStrengthAfter
    defenderStrengthAfter := defenderStrengthAfter }

/-! ### General lemmas about the battle resolver -/

/-- Clamping a zero damage value yields zero. -/
theorem clampDamage_zero (s : ℚ) : clampDamage 0 s = 0 := by
  have h : min (0 : ℚ) (min s MAX_DAMAGE) ≤ 0 := min_le_left _ _
  simp only [clampDamage, MIN_DAMAGE]
  exact max_eq_left h

/-- JS rounding of zero is zero. -/
theorem jsRound_zero : jsRound 0 = 0 := by
  norm_num [jsRound]

/-- Clamped damage against a natural-number strength stays, after JS
rounding, inside `[0, min strength 10]`. -/
theorem jsRound_clampDamage_bounds (x : ℚ) (n : ℕ) :
    0 ≤ jsRound (clampDamage x (n : ℚ)) ∧
      (jsRound (clampDamage x (n : ℚ)) : ℚ) ≤ min (n : ℚ) 10 := by
  have hM : min ((n : ℚ)) 10 = ((min n 10 : ℕ) : ℚ) := by
    rcases le_total (n : ℚ) 10 with h | h
    · rw [min_eq_left h, min_eq_left (by exact_mod_cast h)]
    · rw [min_eq_right h, min_eq_right (by exact_mod_cast h)]; norm_num
  have h0 : (0 : ℚ) ≤ clampDamage x (n : ℚ) := le_max_left _ _
  have h1 : clampDamage x (n : ℚ) ≤ min ((n : ℚ)) 10 := by
    have hnn : (0 : ℚ) ≤ min ((n : ℚ)) 10 := by positivity
    have hle : min x (min ((n : ℚ)) MAX_DAMAGE) ≤ min ((n : ℚ)) 10 := by
      simp only [MAX_DAMAGE]
      exact min_le_right x (min ((n : ℚ)) 10)
    simp only [clampDamage, MIN_DAMAGE]
    exact max_le hnn hle
  constructor
  · have : (0 : ℤ) = jsRound 0 := jsRound_zero.symm
    rw [this, jsRound, jsRound]
    exact Int.floor_le_floor (by linarith)
  · have hfloor : jsRound (clampDamage x (n : ℚ)) ≤ (min n 10 : ℕ) := by
      rw [jsRound]
      have hle : clampDamage x (n : ℚ) + 1 / 2 ≤ ((min n 10 : ℕ) : ℚ) + 1 / 2 := by
        rw [← hM]; linarith
      calc ⌊clampDamage x (n : ℚ) + 1 / 2⌋ ≤ ⌊((min n 10 : ℕ) : ℚ) + 1 / 2⌋ :=
            Int.floor_le_floor hle
        _ = ((min n 10 : ℕ) : ℤ) + ⌊(1 : ℚ) / 2⌋ := by
            rw [show (((min n 10 : ℕ) : ℚ)) = (((min n 10 : ℕ) : ℤ) : ℚ) by push_cast; ring]
            exact Int.floor_int_add _ _
        _ = ((min n 10 : ℕ) : ℤ) := by norm_num
    rw [hM]
    exact_mod_cast hfloor

/-- A ranged attack zeroes the attacker's pre-rout raw damage. -/
theorem preRoutDamages_snd_ranged (attacker defender : Unit) (options : BattleOptions)
    (rng : BattleRng) (h : options.rangedAttack = true) :
    (preRoutDamages attacker defender options rng).2 = 0 := by
  simp [preRoutDamages, h]

/-- The pre-rout damages ignore the rout roll: they consume only the two
variance z-scores. -/
theorem preRoutDamages_routRoll_irrel (attacker defender : Unit) (options : BattleOptions)
    (z1 z2 r r' : ℚ) :
    preRoutDamages attacker defender options ⟨z1, z2, r⟩ =
      preRoutDamages attacker defender options ⟨z1, z2, r'⟩ := rfl

/-! ### Claim C1: ranged attacker immunity -/

/-- A sample playable hex and a neighbor, used by the concrete scenarios. -/
def hexA : Hex := ⟨0, 0⟩

/-- A second sample hex adjacent to `hexA`. -/
def hexB : Hex := ⟨1, 0⟩

/-- A fresh trebuchet of player 0 (full strength, full movement, ammo 9). -/
def sampleTrebuchet : Unit := mkUnit "atk-treb" UnitTypeId.trebuchet 0 hexA

/-- A veteran, fully entrenched infantry defender: entrenchment 8 (the cap)
and accumulated experience 45 (experience is an unbounded accumulator). -/
def veteranInfantry : Unit :=
  { mkUnit "def-inf" UnitTypeId.infantry 1 hexB with entrenchment := 8, experience := 45 }

/-- Options of a plain ranged attack. -/
def rangedOptions : BattleOptions :=
  { closeTerrain := false, surpriseAttack := false, riverAttack := false, rangedAttack := true }

/-- Options of a plain melee attack. -/
def meleeOptions : BattleOptions :=
  { closeTerrain := false, surpriseAttack := false, riverAttack := false, rangedAttack := false }

/-- A legal random outcome: both z-scores 0 (damage at its mean) and a rout
roll of 0, the smallest value `Math.random()` can return. -/
def zeroRng : BattleRng := { zDefender := 0, zAttacker := 0, routRoll := 0 }

/-- Attacker power of the sample ranged battle: `11 + 10/2 + 2 + 0 = 18`. -/
theorem sample_ranged_attackerPower :
    calculateAttackerPower sampleTrebuchet veteranInfantry rangedOptions = 18 := by
  norm_num +decide [calculateAttackerPower, attackerStrengthMultiplier, effectiveInitiative,
    fatigueTiers, percentMovementUsed, getAttackValue, sampleTrebuchet, veteranInfantry,
    rangedOptions, mkUnit, Unit.getType, getUnitType]

/-- Defender power of the sample ranged battle: `6 + 10/2 + 8 + 45 = 64`. -/
theorem sample_ranged_defenderPower :
    calculateDefenderPower veteranInfantry rangedOptions.closeTerrain = 64 := by
  norm_num +decide [calculateDefenderPower, getDefenseValue, veteranInfantry,
    rangedOptions, mkUnit, Unit.getType, getUnitType]

/-- Power ratio of the sample ranged battle: `18 / 64 = 9/32 < 1/3`. -/
theorem sample_ranged_ratio :
    battlePowerRatio sampleTrebuchet veteranInfantry rangedOptions = 9 / 32 := by
  rw [battlePowerRatio]
  rw [show calculateDefenderPower veteranInfantry rangedOptions.closeTerrain = 64 from
        sample_ranged_defenderPower,
      sample_ranged_attackerPower]
  norm_num

/-- At ratio `9/32 ≤ 1/3` the attacker-rout check fires on a rout roll of 0
(the chance is `(32/9 - 3)/4 = 5/36 > 0`), overwriting the ranged attacker's
zero damage with its full strength. -/
theorem sample_ranged_rout_fires :
    applyRoutChecks sampleTrebuchet veteranInfantry (9 / 32) zeroRng
      (preRoutDamages sampleTrebuchet veteranInfantry rangedOptions zeroRng) = (0, 10) := by
  rw [applyRoutChecks]
  norm_num [routChanceVsAttacker, ROUT_THRESHOLD, zeroRng, sampleTrebuchet,
    veteranInfantry, mkUnit]

/-- Claim C1 is false as stated: a full-strength trebuchet making a ranged
attack (`rangedAttack = true`) against a veteran entrenched infantry has
power ratio `9/32 ≤ 1/3`, and on a rout roll of 0 the attacker-rout branch
of `resolveBattle` fires after the ranged zeroing, so the ranged attacker
takes its full strength, 10, as damage rather than 0. -/
theorem C1_counterexample :
    rangedOptions.rangedAttack = true ∧
      (resolveBattle sampleTrebuchet veteranInfantry rangedOptions zeroRng).attackerDamage = 10 ∧
      (10 : ℤ) ≠ 0 := by
  refine ⟨rfl, ?_, by decide⟩
  rw [resolveBattle]
  simp only [sample_ranged_ratio, sample_ranged_rout_fires]
  norm_num [clampDamage, jsRound, sampleTrebuchet, mkUnit, MIN_DAMAGE, MAX_DAMAGE]

/-- Claim C1, amended: a ranged attack yields `attackerDamage = 0` for every
RNG outcome, provided the power ratio exceeds `1/3` (so that the
attacker-rout branch, which runs after the ranged zeroing and can overwrite
the attacker's damage, cannot fire). -/
theorem C1_ranged_attacker_immunity (attacker defender : Unit)
    (options : BattleOptions) (rng : BattleRng)
    (hranged : options.rangedAttack = true)
    (hratio : 1 / 3 < battlePowerRatio attacker defender options) :
    (resolveBattle attacker defender options rng).attackerDamage = 0 := by
  have hsnd :
      (applyRoutChecks attacker defender (battlePowerRatio attacker defender options) rng
        (preRoutDamages attacker defender options rng)).2 = 0 := by
    rw [applyRoutChecks]
    have hnotlow : ¬ battlePowerRatio attacker defender options ≤ 1 / ROUT_THRESHOLD := by
      rw [ROUT_THRESHOLD]; push_neg; linarith
    by_cases h1 : battlePowerRatio attacker defender options ≥ ROUT_THRESHOLD
    · rw [if_pos h1]
      split_ifs
      · rfl
      · exact preRoutDamages_snd_ranged _ _ _ _ hranged
    · rw [if_neg h1, if_neg hnotlow]
      exact preRoutDamages_snd_ranged _ _ _ _ hranged
  rw [resolveBattle]
  simp only [hsnd, clampDamage_zero, jsRound_zero]

/-- Witness for the amended C1: a full-strength trebuchet firing at a fresh
infantry has ratio `18/11 > 1/3`, and the result's attacker damage is 0. -/
theorem C1_witness :
    (resolveBattle sampleTrebuchet (mkUnit "d" UnitTypeId.infantry 1 hexB)
      rangedOptions zeroRng).attackerDamage = 0 := by
  refine C1_ranged_attacker_immunity _ _ _ _ rfl ?_
  norm_num +decide [battlePowerRatio, calculateAttackerPower, calculateDefenderPower,
    attackerStrengthMultiplier, effectiveInitiative, fatigueTiers, percentMovementUsed,
    getAttackValue, getDefenseValue, sampleTrebuchet, rangedOptions, mkUnit, Unit.getType,
    getUnitType, ROUT_THRESHOLD]

/-! ### Claim C2: damage clamped to `[0, min(strengthBefore, 10)]` -/

/-- A fresh infantry attacker of player 0. -/
def sampleInfantry : Unit := mkUnit "atk-inf" UnitTypeId.infantry 0 hexA

/-- An infantry defender at fractional strength `5/2` (strengths are allowed
to be continuous in `[0,10]`). -/
def halfInfantry : Unit :=
  { mkUnit "def-half" UnitTypeId.infantry 1 hexB with strength := 5 / 2 }

/-- Attacker power of the sample melee battle: `6 + 10/2 + 1 + 0 = 12`. -/
theorem sample_melee_attackerPower :
    calculateAttackerPower sampleInfantry halfInfantry meleeOptions = 12 := by
  norm_num +decide [calculateAttackerPower, attackerStrengthMultiplier, effectiveInitiative,
    fatigueTiers, percentMovementUsed, getAttackValue, sampleInfantry, halfInfantry,
    meleeOptions, mkUnit, Unit.getType, getUnitType]

/-- Defender power of the sample melee battle: `6 + (5/2)/2 + 0 + 0 = 29/4`. -/
theorem sample_melee_defenderPower :
    calculateDefenderPower halfInfantry meleeOptions.closeTerrain = 29 / 4 := by
  norm_num +decide [calculateDefenderPower, getDefenseValue, halfInfantry,
    meleeOptions, mkUnit, Unit.getType, getUnitType]

/-- Power ratio of the sample melee battle: `12 / (29/4) = 48/29`. -/
theorem sample_melee_ratio :
    battlePowerRatio sampleInfantry halfInfantry meleeOptions = 48 / 29 := by
  rw [battlePowerRatio]
  rw [show calculateDefenderPower halfInfantry meleeOptions.closeTerrain = 29 / 4 from
        sample_melee_defenderPower,
      sample_melee_attackerPower]
  norm_num

/-- No rout branch fires at ratio `48/29` (it is strictly between `1/3` and
`3`), so the pre-rout damages pass through unchanged. -/
theorem sample_melee_no_rout :
    applyRoutChecks sampleInfantry halfInfantry (48 / 29) zeroRng
        (707 / 145, 308 / 145) = (707 / 145, 308 / 145) := by
  rw [applyRoutChecks]
  norm_num [ROUT_THRESHOLD]

/-- Pre-rout damages of the sample melee battle: the raw defender damage is
`7 * (101/145) = 707/145 ≈ 4.876`, well above the defender's strength. -/
theorem sample_melee_preRout :
    preRoutDamages sampleInfantry halfInfantry meleeOptions zeroRng =
      (707 / 145, 308 / 145) := by
  rw [preRoutDamages]
  simp only [sample_melee_ratio]
  norm_num [calculateDamageDistribution, sampleInfantry, halfInfantry, meleeOptions,
    zeroRng, mkUnit, BASE_TOTAL_DAMAGE, DAMAGE_RATIO_SENSITIVITY, MIN_DAMAGE_SHARE,
    MAX_DAMAGE_SHARE, DAMAGE_STD_DEV]

/-- Claim C2 is false as stated for fractional strengths in `[0,10]`: with a
defender at strength `5/2`, the raw damage clamps to `5/2` but JS rounding
turns it into `3 > min(5/2, 10)`.  Both strengths lie in `[0, 10]`. -/
theorem C2_counterexample :
    sampleInfantry.strength = 10 ∧ halfInfantry.strength = 5 / 2 ∧
      (0 : ℚ) ≤ 5 / 2 ∧ (5 / 2 : ℚ) ≤ 10 ∧
      (resolveBattle sampleInfantry halfInfantry meleeOptions zeroRng).defenderDamage = 3 ∧
      ¬ (((resolveBattle sampleInfantry halfInfantry meleeOptions zeroRng).defenderDamage : ℚ) ≤
          min (resolveBattle sampleInfantry halfInfantry meleeOptions
              zeroRng).defenderStrengthBefore 10) := by
  have hdmg :
      (resolveBattle sampleInfantry halfInfantry meleeOptions zeroRng).defenderDamage = 3 := by
    rw [resolveBattle]
    simp only [sample_melee_ratio, sample_melee_preRout, sample_melee_no_rout]
    norm_num [clampDamage, jsRound, halfInfantry, mkUnit, MIN_DAMAGE, MAX_DAMAGE]
  have hbefore :
      (resolveBattle sampleInfantry halfInfantry meleeOptions
        zeroRng).defenderStrengthBefore = 5 / 2 := by
    rw [resolveBattle]
    norm_num [halfInfantry, mkUnit]
  refine ⟨rfl, rfl, by norm_num, by norm_num, hdmg, ?_⟩
  rw [hdmg, hbefore]
  norm_num

/-- Claim C2, amended to integer strengths (the invariant the shipped code
maintains): for natural-number strengths at most 10, every battle result
keeps both rounded damages inside `[0, min(strengthBefore, 10)]`, for every
RNG outcome. -/
theorem C2_damage_clamp (attacker defender : Unit) (options : BattleOptions)
    (rng : BattleRng) (na nd : ℕ)
    (ha : attacker.strength = (na : ℚ)) (hd : defender.strength = (nd : ℚ)) :
    0 ≤ (resolveBattle attacker defender options rng).defenderDamage ∧
      ((resolveBattle attacker defender options rng).defenderDamage : ℚ) ≤
        min (resolveBattle attacker defender options rng).defenderStrengthBefore 10 ∧
      0 ≤ (resolveBattle attacker defender options rng).attackerDamage ∧
      ((resolveBattle attacker defender options rng).attackerDamage : ℚ) ≤
        min (resolveBattle attacker defender options rng).attackerStrengthBefore 10 := by
  rw [resolveBattle]
  simp only [ha, hd]
  exact ⟨(jsRound_clampDamage_bounds _ nd).1, (jsRound_clampDamage_bounds _ nd).2,
    (jsRound_clampDamage_bounds _ na).1, (jsRound_clampDamage_bounds _ na).2⟩

/-- Witness for the amended C2: the bounds hold at a concrete battle of two
full-strength (strength 10) infantry units. -/
theorem C2_witness :
    0 ≤ (resolveBattle sampleInfantry (mkUnit "d" UnitTypeId.infantry 1 hexB)
        meleeOptions zeroRng).defenderDamage ∧
      ((resolveBattle sampleInfantry (mkUnit "d" UnitTypeId.infantry 1 hexB)
          meleeOptions zeroRng).defenderDamage : ℚ) ≤
        min (resolveBattle sampleInfantry (mkUnit "d" UnitTypeId.infantry 1 hexB)
            meleeOptions zeroRng).defenderStrengthBefore 10 ∧
      0 ≤ (resolveBattle sampleInfantry (mkUnit "d" UnitTypeId.infantry 1 hexB)
          meleeOptions zeroRng).attackerDamage ∧
      ((resolveBattle sampleInfantry (mkUnit "d" UnitTypeId.infantry 1 hexB)
          meleeOptions zeroRng).attackerDamage : ℚ) ≤
        min (resolveBattle sampleInfantry (mkUnit "d" UnitTypeId.infantry 1 hexB)
            meleeOptions zeroRng).attackerStrengthBefore 10 :=
  C2_damage_clamp sampleInfantry (mkUnit "d" UnitTypeId.infantry 1 hexB)
    meleeOptions zeroRng 10 10 (by norm_num [sampleInfantry, mkUnit])
    (by norm_num [mkUnit])

/-! ### Claim C3: fatigue / surprise / river strength multiplier -/

/-- Claim C3: the strength multiplier applied by `calculateAttackerPower` is
`max(0.2, 1 - 0.2·fatigueTiers - (0.2 if surprise) - (0.3 if river))` with
`fatigueTiers = min(2, ⌊percentUsed / 0.33⌋)`; an infantry attacker that
used 2 of its 3 movement points has tier 2 and multiplier 0.6; and the
effective initiative is zero under surprise or river attack. -/
theorem C3_fatigue_multiplier (attacker defender : Unit) (options : BattleOptions) :
    (calculateAttackerPower attacker defender options =
      getAttackValue attacker.getType defender.getType
        + (attacker.strength / 2) *
            max 0.2 (1 - 0.2 * ((min 2 ⌊percentMovementUsed attacker / 0.33⌋ : ℤ) : ℚ)
              - (if options.surpriseAttack then 0.2 else 0)
              - (if options.riverAttack then 0.3 else 0))
        + effectiveInitiative attacker options + attacker.experience) ∧
    (attacker.typeId = UnitTypeId.infantry → attacker.movementRemaining = 1 →
      fatigueTiers attacker = 2) ∧
    (attacker.typeId = UnitTypeId.infantry → attacker.movementRemaining = 1 →
      options.surpriseAttack = false → options.riverAttack = false →
      attackerStrengthMultiplier attacker options = 0.6) ∧
    (options.surpriseAttack = true ∨ options.riverAttack = true →
      effectiveInitiative attacker options = 0) := by
  have htier : attacker.typeId = UnitTypeId.infantry → attacker.movementRemaining = 1 →
      fatigueTiers attacker = 2 := by
    intro h1 h2
    rw [fatigueTiers, percentMovementUsed, Unit.getType, h1, h2]
    rw [show ((getUnitType UnitTypeId.infantry).movement : ℚ) = 3 from rfl]
    norm_num
  refine ⟨?_, htier, ?_, ?_⟩
  · rw [calculateAttackerPower, attackerStrengthMultiplier, fatigueTiers]
    cases hs : options.surpriseAttack <;> cases hr : options.riverAttack <;>
      simp only [hs, hr, if_true, if_false, Bool.false_eq_true, Bool.true_eq_false] <;>
      ring_nf
  · intro h1 h2 hs hr
    rw [attackerStrengthMultiplier, htier h1 h2, hs, hr]
    norm_num
  · intro h
    rcases h with hs | hr
    · simp [effectiveInitiative, hs]
    · simp [effectiveInitiative, hr]

/-- An infantry unit that has used 2 of its 3 movement points this turn. -/
def movedInfantry : Unit :=
  { mkUnit "moved-inf" UnitTypeId.infantry 0 hexA with movementRemaining := 1 }

/-- Surprise-attack options (melee). -/
def surpriseOptions : BattleOptions :=
  { closeTerrain := false, surpriseAttack := true, riverAttack := false, rangedAttack := false }

/-- Witness for C3: the fatigue tier, multiplier and zeroed-initiative facts
at concrete inputs (infantry that used 2 of 3 movement points; a surprise
attack). -/
theorem C3_witness :
    fatigueTiers movedInfantry = 2 ∧
      attackerStrengthMultiplier movedInfantry meleeOptions = 0.6 ∧
      effectiveInitiative movedInfantry surpriseOptions = 0 :=
  ⟨(C3_fatigue_multiplier movedInfantry movedInfantry meleeOptions).2.1 rfl rfl,
   (C3_fatigue_multiplier movedInfantry movedInfantry meleeOptions).2.2.1 rfl rfl rfl rfl,
   (C3_fatigue_multiplier movedInfantry movedInfantry surpriseOptions).2.2.2 (Or.inl rfl)⟩

/-! ### Claim C5: defense-value terrain selection -/

/-- The defender-power formula exactly as the claim words it: close defense
whenever the defender is in close terrain, ground defense otherwise (no
condition on the close-defense stat).  Stated for comparison with
`calculateDefenderPower`. -/
def claimDefenderPower (defender : Unit) (closeTerrain : Bool) : ℚ :=
  (if closeTerrain then defender.getType.closeDefense else defender.getType.groundDefense)
    + defender.strength / 2 + defender.entrenchment + defender.experience

/-- A fresh trebuchet of player 1 used as a defender. -/
def defendingTrebuchet : Unit := mkUnit "def-treb" UnitTypeId.trebuchet 1 hexB

/-- Claim C5 is false as stated: a trebuchet (closeDefense 0) defending in
close terrain gets power `2 + 5 = 7` from the code (which falls back to
ground defense because its close defense is not positive), while the
claimed formula gives `0 + 5 = 5`. -/
theorem C5_counterexample :
    calculateDefenderPower defendingTrebuchet true = 7 ∧
      claimDefenderPower defendingTrebuchet true = 5 ∧
      calculateDefenderPower defendingTrebuchet true ≠
        claimDefenderPower defendingTrebuchet true := by
  refine ⟨?_, ?_, ?_⟩
  · norm_num +decide [calculateDefenderPower, getDefenseValue, defendingTrebuchet,
      mkUnit, Unit.getType, getUnitType]
  · norm_num +decide [claimDefenderPower, defendingTrebuchet, mkUnit,
      Unit.getType, getUnitType]
  · norm_num +decide [calculateDefenderPower, claimDefenderPower, getDefenseValue,
      defendingTrebuchet, mkUnit, Unit.getType, getUnitType]

/-- Claim C5, amended: defender power uses the close-defense stat exactly
when the defender is in close terrain *and* that stat is positive, and the
ground-defense stat otherwise; in particular a cavalry defender in close
terrain uses defense value 2 (not its ground defense 8). -/
theorem C5_defense_selection (defender : Unit) (closeTerrain : Bool) :
    (calculateDefenderPower defender closeTerrain =
      (if closeTerrain ∧ defender.getType.closeDefense > 0 then defender.getType.closeDefense
        else defender.getType.groundDefense)
        + defender.strength / 2 + defender.entrenchment + defender.experience) ∧
    getDefenseValue (getUnitType UnitTypeId.cavalry) true = 2 ∧
    getDefenseValue (getUnitType UnitTypeId.cavalry) false = 8 := by
  refine ⟨?_, ?_, ?_⟩
  · rw [calculateDefenderPower, getDefenseValue]
  · norm_num [getDefenseValue, getUnitType]
  · norm_num [getDefenseValue, getUnitType]

/-! ### Claim C9: no rout at a power ratio of exactly 3 -/

/-- Claim C9: when the power ratio is exactly 3, the rout chance
`(ratio - 3)/4` is 0, the rout branch leaves the damages untouched for any
legal (non-negative) rout roll, and the whole battle result is independent
of the rout roll. -/
theorem C9_rout_boundary (attacker defender : Unit) (options : BattleOptions)
    (rng : BattleRng) (roll' : ℚ)
    (h0 : 0 ≤ rng.routRoll) (h0' : 0 ≤ roll')
    (hr : battlePowerRatio attacker defender options = 3) :
    routChanceVsDefender (battlePowerRatio attacker defender options) = 0 ∧
      applyRoutChecks attacker defender (battlePowerRatio attacker defender options) rng
          (preRoutDamages attacker defender options rng) =
        preRoutDamages attacker defender options rng ∧
      resolveBattle attacker defender options rng =
        resolveBattle attacker defender options
          ⟨rng.zDefender, rng.zAttacker, roll'⟩ := by
  obtain ⟨z1, z2, roll⟩ := rng
  have hchance : routChanceVsDefender (3 : ℚ) = 0 := by
    rw [routChanceVsDefender, ROUT_THRESHOLD]; norm_num
  have hnorout : ∀ rr : ℚ, 0 ≤ rr → ∀ p : ℚ × ℚ,
      applyRoutChecks attacker defender (battlePowerRatio attacker defender options)
        ⟨z1, z2, rr⟩ p = p := by
    intro rr hrr p
    rw [applyRoutChecks, hr]
    rw [if_pos (by norm_num [ROUT_THRESHOLD])]
    rw [if_neg (by rw [hchance]; exact not_lt.mpr hrr)]
  have h0 : (0 : ℚ) ≤ roll := h0
  have e1 := hnorout roll h0 (preRoutDamages attacker defender options ⟨z1, z2, roll⟩)
  have e2 := hnorout roll' h0' (preRoutDamages attacker defender options ⟨z1, z2, roll'⟩)
  have hpre : preRoutDamages attacker defender options ⟨z1, z2, roll'⟩ =
      preRoutDamages attacker defender options ⟨z1, z2, roll⟩ := rfl
  refine ⟨by rw [hr]; exact hchance, e1, ?_⟩
  rw [resolveBattle, resolveBattle, e1, e2, hpre]

/-- A trebuchet defender at strength 4: defender power `2 + 4/2 = 4`. -/
def weakTrebuchet : Unit :=
  { mkUnit "weak-treb" UnitTypeId.trebuchet 1 hexB with strength := 4 }

/-- The sample infantry attacking the strength-4 trebuchet has power
ratio exactly `12 / 4 = 3`. -/
theorem sample_ratio_three :
    battlePowerRatio sampleInfantry weakTrebuchet meleeOptions = 3 := by
  norm_num +decide [battlePowerRatio, calculateAttackerPower, calculateDefenderPower,
    attackerStrengthMultiplier, effectiveInitiative, fatigueTiers, percentMovementUsed,
    getAttackValue, getDefenseValue, sampleInfantry, weakTrebuchet, meleeOptions,
    mkUnit, Unit.getType, getUnitType]

/-- Witness for C9 at a concrete ratio-3 battle (infantry, power 12, vs a
strength-4 trebuchet, power 4) with rout roll 0 and alternative roll 1/2. -/
theorem C9_witness :
    routChanceVsDefender (battlePowerRatio sampleInfantry weakTrebuchet meleeOptions) = 0 ∧
      applyRoutChecks sampleInfantry weakTrebuchet
          (battlePowerRatio sampleInfantry weakTrebuchet meleeOptions) zeroRng
          (preRoutDamages sampleInfantry weakTrebuchet meleeOptions zeroRng) =
        preRoutDamages sampleInfantry weakTrebuchet meleeOptions zeroRng ∧
      resolveBattle sampleInfantry weakTrebuchet meleeOptions zeroRng =
        resolveBattle sampleInfantry weakTrebuchet meleeOptions
          ⟨zeroRng.zDefender, zeroRng.zAttacker, 1 / 2⟩ :=
  C9_rout_boundary sampleInfantry weakTrebuchet meleeOptions zeroRng (1 / 2)
    (by norm_num [zeroRng]) (by norm_num) sample_ratio_three


/-! ### Map cells and the hex map (`src/unnamed/part_010`) -/

/-- A `HexCell`: terrain plus the six directional edge-feature slots (index
0 = East, clockwise), the legacy visibility tag and unit id. -/
structure HexCell where
  hex : Hex
  terrain : Terrain
  edges : List EdgeFeature
  visibility : String
  unitId : Option String
  deriving DecidableEq, Repr

/-- The `HexCell` constructor: all six edges start as `none`. -/
def mkHexCell (hex : Hex) (terrain : Terrain) : HexCell :=
  { hex := hex, terrain := terrain, edges := List.replicate 6 EdgeFeature.none
    visibility := "visible", unitId := Option.none }

/-- `cell.getEdge(direction)` (out-of-range reads do not occur: the edges
array always has six entries). -/
def HexCell.getEdge (c : HexCell) (dir : ℕ) : EdgeFeature :=
  c.edges.getD dir EdgeFeature.none

/-- The `bounds` record maintained by `HexMap.updateBounds`. -/
structure Bounds where
  minQ : ℤ
  maxQ : ℤ
  minR : ℤ
  maxR : ℤ
  deriving DecidableEq, Repr

/-- An entry of the map's `riverPath` (a hex plus a corner index). -/
structure RiverPathEntry where
  hex : Hex
  cornerIndex : ℤ
  deriving DecidableEq, Repr

/-- The `HexMap`: its cells in insertion order (the JS `Map` keyed by
`hex.key` preserves insertion order and has unique keys), bounds, and the
river path. -/
structure HexMap where
  cells : List HexCell
  bounds : Option Bounds
  riverPath : List RiverPathEntry
  deriving DecidableEq, Repr

/-- The `HexMap` constructor. -/
def emptyHexMap : HexMap :=
  { cells := [], bounds := Option.none, riverPath := [] }

/-- `map.getCell(hex)`. -/
def HexMap.getCell (m : HexMap) (h : Hex) : Option HexCell :=
  m.cells.find? (fun c => c.hex = h)

/-- `map.hasCell(hex)`. -/
def HexMap.hasCell (m : HexMap) (h : Hex) : Bool :=
  (m.getCell h).isSome

/-- `map.updateBounds(hex)`. -/
def HexMap.updateBounds (b : Option Bounds) (h : Hex) : Bounds :=
  match b with
  | Option.none => { minQ := h.q, maxQ := h.q, minR := h.r, maxR := h.r }
  | some b =>
    { minQ := min b.minQ h.q, maxQ := max b.maxQ h.q
      minR := min b.minR h.r, maxR := max b.maxR h.r }

/-- `map.addCell(cell)`: `Map.set` replaces an existing entry with the same
key and otherwise appends; bounds are always updated. -/
def HexMap.addCell (m : HexMap) (c : HexCell) : HexMap :=
  { cells :=
      if m.cells.any (fun c0 => c0.hex = c.hex) then
        m.cells.map (fun c0 => if c0.hex = c.hex then c else c0)
      else m.cells ++ [c]
    bounds := some (HexMap.updateBounds m.bounds c.hex)
    riverPath := m.riverPath }

/-! ### Game state (`src/js/core/gameState.js`) -/

/-- The `GamePhase` enum. -/
inductive GamePhase where
  | placement | movement | victory | defeat
  deriving DecidableEq, Repr

/-- A player record. -/
structure Player where
  id : ℕ
  name : String
  faction : String
  deriving DecidableEq, Repr

/-- The `settings` record. -/
structure Settings where
  fogOfWar : Bool
  showGrid : Bool
  showCoordinates : Bool
  deriving DecidableEq, Repr

/-- The `GameState` aggregate.  `visibleHexes` models the `_visibleHexes`
cache (a derived set of hex keys, here the hexes themselves); the
`_movementCosts` cache is threaded explicitly through the movement search
instead of being stored. -/
structure GameState where
  id : Option String
  name : String
  createdAt : Option String
  updatedAt : Option String
  turn : ℕ
  currentPlayer : ℕ
  phase : GamePhase
  map : Option HexMap
  units : List Unit
  players : List Player
  selectedHex : Option Hex
  selectedUnit : Option String
  unitsToPlace : ℕ
  unitTypesToPlace : List String
  capturedCastles : List String
  enemyCastleKeys : List String
  totalCastles : ℕ
  turnLimit : ℕ
  turnsRemaining : ℤ
  earlyVictoryBonus : ℕ
  prestige : ℚ
  settings : Settings
  currentLevel : ℕ
  visibleHexes : List Hex
  deriving DecidableEq, Repr

/-- `state.units.getUnitAt(hex)`: the first unit (in insertion order)
standing on the hex. -/
def GameState.getUnitAt (gs : GameState) (h : Hex) : Option Unit :=
  gs.units.find? (fun u => u.hex = h)

/-- `state.isHexVisible(hex)`: unconditionally true when fog of war is off,
otherwise membership in the visibility cache. -/
def GameState.isHexVisible (gs : GameState) (h : Hex) : Bool :=
  if !gs.settings.fogOfWar then true
  else gs.visibleHexes.any (fun v => v = h)

/-- `state.isInEnemyZOC(hex)`: adjacent to a *visible* enemy of the current
player. -/
def GameState.isInEnemyZOC (gs : GameState) (h : Hex) : Bool :=
  (List.finRange 6).any (fun dir =>
    match gs.getUnitAt (h.neighbor dir) with
    | some u => decide (u.playerId ≠ gs.currentPlayer) && gs.isHexVisible (h.neighbor dir)
    | Option.none => false)

/-- `state.isUnitInAnyEnemyZOC(unit)`: adjacent to any enemy of the unit's
owner, visible or not. -/
def GameState.isUnitInAnyEnemyZOC (gs : GameState) (u : Unit) : Bool :=
  (List.finRange 6).any (fun dir =>
    match gs.getUnitAt (u.hex.neighbor dir) with
    | some adj => decide (adj.playerId ≠ u.playerId)
    | Option.none => false)

/-! ### Rebuild system (`src/js/units/rebuild.js`) -/

/-- `RebuildSystem.canRebuild`. -/
def canRebuild (gs : GameState) (unit : Unit) : Bool :=
  if unit.playerId ≠ gs.currentPlayer then false
  else if 10 ≤ unit.strength then false
  else if unit.hasMoved || unit.hasAttacked then false
  else if gs.isUnitInAnyEnemyZOC unit then false
  else true

/-- The record returned by `RebuildSystem.getAffordableRebuild`. -/
structure AffordableRebuild where
  affordableStrength : ℚ
  cost : ℚ
  expLoss : ℚ
  deriving DecidableEq, Repr

/-- `RebuildSystem.getAffordableRebuild`: the strength increment affordable
with the available prestige, capped at the missing strength; its cost is
`ceil(affordable × costPerStrength)`. -/
def getAffordableRebuild (unit : Unit) (availablePrestige : ℚ)
    (keepExperience : Bool) : AffordableRebuild :=
  let unitType := unit.getType
  let missingStrength := 10 - unit.strength
  let costPerStrength := if keepExperience then unitType.cost / 10 else unitType.cost / 20
  let affordableStrength :=
    min missingStrength ((⌊availablePrestige / costPerStrength⌋ : ℤ) : ℚ)
  if affordableStrength ≤ 0 then
    { affordableStrength := 0, cost := 0, expLoss := 0 }
  else
    { affordableStrength := affordableStrength
      cost := ((⌈affordableStrength * costPerStrength⌉ : ℤ) : ℚ)
      expLoss :=
        if keepExperience then 0 else (affordableStrength / 10) * unit.experience }

/-- The record returned by `RebuildSystem.rebuild` (`insufficientFunds` is
present only on the insufficient-prestige return in JS; absent means
`false`). -/
structure RebuildResult where
  success : Bool
  cost : ℚ
  expLost : ℚ
  strengthGained : ℚ
  insufficientFunds : Bool
  deriving DecidableEq, Repr

/-- `RebuildSystem.rebuild`.  JS mutates `gameState.prestige` and the unit
in place (the unit object is shared with the unit manager); here the
updated state and the updated unit are returned explicitly. -/
def rebuild (gs : GameState) (unit : Unit) (keepExperience : Bool) :
    RebuildResult × GameState × Unit :=
  if canRebuild gs unit = false then
    ({ success := false, cost := 0, expLost := 0, strengthGained := 0
       insufficientFunds := false }, gs, unit)
  else
    let affordable := getAffordableRebuild unit gs.prestige keepExperience
    if affordable.affordableStrength ≤ 0 then
      ({ success := false, cost := 0, expLost := 0, strengthGained := 0
         insufficientFunds := true }, gs, unit)
    else
      let gs1 := { gs with prestige := gs.prestige - affordable.cost }
      let expLost := if keepExperience then 0 else affordable.expLoss
      let unit1 :=
        if keepExperience then unit
        else { unit with experience := max 0 (unit.experience - expLost) }
      let newStrength := min 10 (unit1.strength + affordable.affordableStrength)
      let strengthGained := newStrength - unit1.strength
      let unit2 :=
        { unit1 with strength := newStrength, hasMoved := true, hasAttacked := true
                     entrenchment := 0, turnsStationary := 0 }
      ({ success := true, cost := affordable.cost, expLost := expLost
         strengthGained := strengthGained, insufficientFunds := false }, gs1, unit2)


/-! ### Claim C7: rebuild rejections leave all state unchanged -/

/-- The disjunction of the claim's ineligibility conditions forces
`canRebuild` to false. -/
theorem canRebuild_false_of (gs : GameState) (unit : Unit)
    (h : unit.playerId ≠ gs.currentPlayer ∨ 10 ≤ unit.strength ∨
      unit.hasMoved = true ∨ unit.hasAttacked = true ∨
      gs.isUnitInAnyEnemyZOC unit = true) :
    canRebuild gs unit = false := by
  rcases h with h | h | h | h | h <;> simp [canRebuild, h]

/-- Claim C7: `rebuild` returns `success = false` and leaves the game state
and the unit untouched whenever the unit is not owned by the current
player, is at full strength, has already acted, or sits in any enemy ZOC
(visible or hidden); and when the unit is eligible but the prestige cannot
buy any strength, the same with the `insufficientFunds` flag set. -/
theorem C7_rebuild_rejections (gs : GameState) (unit : Unit) (keepExperience : Bool) :
    ((unit.playerId ≠ gs.currentPlayer ∨ 10 ≤ unit.strength ∨
        unit.hasMoved = true ∨ unit.hasAttacked = true ∨
        gs.isUnitInAnyEnemyZOC unit = true) →
      rebuild gs unit keepExperience =
        ({ success := false, cost := 0, expLost := 0, strengthGained := 0
           insufficientFunds := false }, gs, unit)) ∧
    (canRebuild gs unit = true →
      (getAffordableRebuild unit gs.prestige keepExperience).affordableStrength ≤ 0 →
      rebuild gs unit keepExperience =
        ({ success := false, cost := 0, expLost := 0, strengthGained := 0
           insufficientFunds := true }, gs, unit)) := by
  constructor
  · intro h
    rw [rebuild, if_pos (canRebuild_false_of gs unit h)]
  · intro hcr haff
    rw [rebuild, if_neg (by rw [hcr]; exact fun hx => Bool.true_eq_false.mp hx)]
    simp only [if_pos haff]

/-- A state whose current player is 0, with no map and a single damaged
unit owned by player 1 standing alone. -/
def lonelyEnemyUnit : Unit :=
  { mkUnit "lonely-enemy" UnitTypeId.infantry 1 hexA with strength := 5 }

/-- A damaged, unacted infantry of player 0 standing alone. -/
def lonelyOwnUnit : Unit :=
  { mkUnit "lonely-own" UnitTypeId.infantry 0 hexA with strength := 5 }

/-- A minimal game state holding exactly the given units, owned by player 0,
with the given prestige. -/
def miniState (units : List Unit) (prestige : ℚ) : GameState :=
  { id := Option.none, name := "Untitled", createdAt := Option.none
    updatedAt := Option.none, turn := 1, currentPlayer := 0
    phase := GamePhase.movement, map := Option.none, units := units
    players := [{ id := 0, name := "Player 1", faction := "blue" },
                { id := 1, name := "Player 2", faction := "red" }]
    selectedHex := Option.none, selectedUnit := Option.none
    unitsToPlace := 0, unitTypesToPlace := [], capturedCastles := []
    enemyCastleKeys := [], totalCastles := 3, turnLimit := 15
    turnsRemaining := 15, earlyVictoryBonus := 20, prestige := prestige
    settings := { fogOfWar := true, showGrid := true, showCoordinates := false }
    currentLevel := 1, visibleHexes := [] }

/-- Witness for C7: rebuilding an enemy-owned unit is rejected with no state
change, and rebuilding an eligible unit with zero prestige is rejected with
the `insufficientFunds` flag and no state change. -/
theorem C7_witness :
    rebuild (miniState [lonelyEnemyUnit] 150) lonelyEnemyUnit true =
      ({ success := false, cost := 0, expLost := 0, strengthGained := 0
         insufficientFunds := false }, miniState [lonelyEnemyUnit] 150, lonelyEnemyUnit) ∧
    rebuild (miniState [lonelyOwnUnit] 0) lonelyOwnUnit true =
      ({ success := false, cost := 0, expLost := 0, strengthGained := 0
         insufficientFunds := true }, miniState [lonelyOwnUnit] 0, lonelyOwnUnit) := by
  constructor
  · exact (C7_rebuild_rejections (miniState [lonelyEnemyUnit] 150) lonelyEnemyUnit true).1
      (Or.inl (by simp [lonelyEnemyUnit, mkUnit, miniState]))
  · refine (C7_rebuild_rejections (miniState [lonelyOwnUnit] 0) lonelyOwnUnit true).2 ?_ ?_
    · decide
    · norm_num [getAffordableRebuild, lonelyOwnUnit, mkUnit, miniState,
        Unit.getType, getUnitType]

/-! ### Claim C8: affordable rebuild never costs more than the prestige -/

/-- Claim C8: for every unit, every non-negative integer prestige amount and
either price model, the cost computed by `getAffordableRebuild` is at most
the available prestige. -/
theorem C8_affordable_cost_le_prestige (unit : Unit) (p : ℕ) (keepExperience : Bool) :
    (getAffordableRebuild unit (p : ℚ) keepExperience).cost ≤ (p : ℚ) := by
  have hc : 0 < unit.getType.cost := by
    rw [Unit.getType]; cases unit.typeId <;> norm_num [getUnitType]
  have hcps :
      0 < (if keepExperience then unit.getType.cost / 10 else unit.getType.cost / 20) := by
    cases hk : keepExperience
    · rw [if_neg (by simp)]
      exact div_pos hc (by norm_num)
    · rw [if_pos rfl]
      exact div_pos hc (by norm_num)
  simp only [getAffordableRebuild]
  set cps := if keepExperience then unit.getType.cost / 10 else unit.getType.cost / 20
    with hcpsdef
  set a := min (10 - unit.strength) ((⌊(p : ℚ) / cps⌋ : ℤ) : ℚ) with hadef
  by_cases ha : a ≤ 0
  · rw [if_pos ha]
    show (0 : ℚ) ≤ (p : ℚ)
    positivity
  · rw [if_neg ha]
    show ((⌈a * cps⌉ : ℤ) : ℚ) ≤ (p : ℚ)
    have h1 : a ≤ ((⌊(p : ℚ) / cps⌋ : ℤ) : ℚ) := by rw [hadef]; exact min_le_right _ _
    have h2 : ((⌊(p : ℚ) / cps⌋ : ℤ) : ℚ) ≤ (p : ℚ) / cps := Int.floor_le _
    have hmul : a * cps ≤ (p : ℚ) := by
      calc a * cps ≤ ((p : ℚ) / cps) * cps :=
            mul_le_mul_of_nonneg_right (h1.trans h2) hcps.le
        _ = (p : ℚ) := div_mul_cancel₀ _ (ne_of_gt hcps)
    have hceil : ⌈a * cps⌉ ≤ (p : ℤ) := by
      rw [Int.ceil_le]
      exact_mod_cast hmul
    exact_mod_cast hceil


/-! ### Claim C10: defensive fire (`GameState.executeDefensiveFire`) -/

/-- The record returned by `executeDefensiveFire` (`defenderTerrain` is
present only on success; the attacker is the "defender" of the defensive
fire). -/
structure DefensiveFireResult where
  success : Bool
  defenderTerrain : Option Terrain
  deriving DecidableEq, Repr

/-- `GameState.executeDefensiveFire(artillery, attacker)`: no ammo means a
structured failure; otherwise one ammo is consumed (when ammo is tracked)
and nothing else changes — in particular the artillery is *not* marked as
having attacked.  JS mutates the artillery in place; the updated unit is
returned alongside the result.  (A null map would make the JS throw on
`getCell`; a missing cell falls back to grass.) -/
def executeDefensiveFire (gs : GameState) (artillery attacker : Unit) :
    DefensiveFireResult × Unit :=
  if artillery.hasAmmo = false then
    ({ success := false, defenderTerrain := Option.none }, artillery)
  else
    let attackerTerrain :=
      match gs.map with
      | some m =>
        match m.getCell attacker.hex with
        | some c => c.terrain
        | Option.none => Terrain.grass
      | Option.none => Terrain.grass
    let artillery1 :=
      match artillery.ammo with
      | some a => { artillery with ammo := some (a - 1) }
      | Option.none => artillery
    ({ success := true, defenderTerrain := some attackerTerrain }, artillery1)

/-- Claim C10: defensive fire by an artillery unit with ammo decrements that
ammo by exactly one and changes nothing else about the unit (strength, hex,
flags, movement, experience, entrenchment all untouched, so its turn is not
consumed); with no ammo it fails with no change at all. -/
theorem C10_defensive_fire_frame (gs : GameState) (artillery attacker : Unit) (n : ℤ) :
    (artillery.ammo = some n → 0 < n →
      (executeDefensiveFire gs artillery attacker).1.success = true ∧
        (executeDefensiveFire gs artillery attacker).2 =
          { artillery with ammo := some (n - 1) }) ∧
    (artillery.ammo = some n → n ≤ 0 →
      executeDefensiveFire gs artillery attacker =
        ({ success := false, defenderTerrain := Option.none }, artillery)) := by
  constructor
  · intro hammo hpos
    have hhas : artillery.hasAmmo = true := by
      rw [Unit.hasAmmo, hammo]
      simpa using hpos
    rw [executeDefensiveFire, if_neg (by rw [hhas]; simp)]
    refine ⟨rfl, ?_⟩
    simp only [hammo]
  · intro hammo hnonpos
    have hhas : artillery.hasAmmo = false := by
      rw [Unit.hasAmmo, hammo]
      simpa using not_lt.mpr hnonpos
    rw [executeDefensiveFire, if_pos hhas]

/-- A trebuchet of player 1 with full ammo (9). -/
def defensiveTrebuchet : Unit := mkUnit "def-fire-treb" UnitTypeId.trebuchet 1 hexB

/-- A trebuchet of player 1 with no ammo left. -/
def emptyTrebuchet : Unit :=
  { mkUnit "empty-treb" UnitTypeId.trebuchet 1 hexB with ammo := some 0 }

/-- Witness for C10: with ammo 9 the defensive fire succeeds and only the
ammo changes (to 8); with ammo 0 it fails and the unit is untouched. -/
theorem C10_witness :
    ((executeDefensiveFire (miniState [defensiveTrebuchet, sampleInfantry] 0)
        defensiveTrebuchet sampleInfantry).1.success = true ∧
      (executeDefensiveFire (miniState [defensiveTrebuchet, sampleInfantry] 0)
          defensiveTrebuchet sampleInfantry).2 =
        { defensiveTrebuchet with ammo := some 8 }) ∧
    executeDefensiveFire (miniState [emptyTrebuchet, sampleInfantry] 0)
        emptyTrebuchet sampleInfantry =
      ({ success := false, defenderTerrain := Option.none }, emptyTrebuchet) := by
  constructor
  · have h := (C10_defensive_fire_frame (miniState [defensiveTrebuchet, sampleInfantry] 0)
      defensiveTrebuchet sampleInfantry 9).1 rfl (by norm_num)
    exact ⟨h.1, by rw [h.2]; norm_num⟩
  · exact (C10_defensive_fire_frame (miniState [emptyTrebuchet, sampleInfantry] 0)
      emptyTrebuchet sampleInfantry 0).2 rfl le_rfl


/-! ### Serialization (`toJSON` / `fromJSON`) -/

/-- JS `x || 0` on a number: 0 is falsy, everything else passes through. -/
def jsOrZero (x : ℚ) : ℚ := if x = 0 then 0 else x

/-- JS `x || 0` on a non-negative integer. -/
def jsOrZeroNat (n : ℕ) : ℕ := if n = 0 then 0 else n

/-- JS `x || null` on a nullable string: `null` and the empty string are
falsy. -/
def jsOrNullStr (s : Option String) : Option String :=
  match s with
  | some v => if v = "" then Option.none else some v
  | Option.none => Option.none

/-- JS `x || d` on a string: only the empty string falls back. -/
def jsOrStr (s d : String) : String := if s = "" then d else s

/-- The document produced by `Unit.toJSON`. -/
structure UnitJSON where
  id : String
  typeId : UnitTypeId
  playerId : ℕ
  hex : Hex
  strength : ℚ
  ammo : Option ℤ
  experience : ℚ
  entrenchment : ℚ
  suppression : ℚ
  movementRemaining : ℚ
  hasAttacked : Bool
  hasMoved : Bool
  turnsStationary : ℕ
  deriving DecidableEq, Repr

/-- `Unit.toJSON`. -/
def Unit.toJSON (u : Unit) : UnitJSON :=
  { id := u.id, typeId := u.typeId, playerId := u.playerId, hex := u.hex
    strength := u.strength, ammo := u.ammo, experience := u.experience
    entrenchment := u.entrenchment, suppression := u.suppression
    movementRemaining := u.movementRemaining, hasAttacked := u.hasAttacked
    hasMoved := u.hasMoved, turnsStationary := u.turnsStationary }

/-- `Unit.fromJSON`: builds the unit through the constructor (whose fresh
UUID is immediately overwritten by `data.id`), then restores the persisted
fields, with the `|| 0` / `|| false` fallbacks the source uses. -/
def Unit.fromJSON (d : UnitJSON) : Unit :=
  let u := mkUnit "" d.typeId d.playerId d.hex
  { u with
      id := d.id
      strength := d.strength
      ammo := d.ammo
      experience := jsOrZero d.experience
      entrenchment := jsOrZero d.entrenchment
      suppression := jsOrZero d.suppression
      movementRemaining := d.movementRemaining
      hasAttacked := d.hasAttacked
      hasMoved := d.hasMoved || false
      turnsStationary := jsOrZeroNat d.turnsStationary }

/-- The document produced by `HexCell.toJSON`. -/
structure CellJSON where
  q : ℤ
  r : ℤ
  terrain : Terrain
  edges : List EdgeFeature
  visibility : String
  unitId : Option String
  deriving DecidableEq, Repr

/-- `HexCell.toJSON`. -/
def HexCell.toJSON (c : HexCell) : CellJSON :=
  { q := c.hex.q, r := c.hex.r, terrain := c.terrain, edges := c.edges
    visibility := c.visibility, unitId := c.unitId }

/-- `HexCell.fromJSON`.  The `data.edges || Array(6).fill(NONE)` fallback
never fires for an emitted document (arrays are truthy), so edges copy
through; `visibility` and `unitId` use string truthiness. -/
def HexCell.fromJSON (d : CellJSON) : HexCell :=
  let c := mkHexCell ⟨d.q, d.r⟩ d.terrain
  { c with
      edges := d.edges
      visibility := jsOrStr d.visibility "visible"
      unitId := jsOrNullStr d.unitId }

/-- The document produced by `HexMap.toJSON`. -/
structure MapJSON where
  cells : List CellJSON
  bounds : Option Bounds
  riverPath : List RiverPathEntry
  deriving DecidableEq, Repr

/-- `HexMap.toJSON`. -/
def HexMap.toJSON (m : HexMap) : MapJSON :=
  { cells := m.cells.map HexCell.toJSON, bounds := m.bounds, riverPath := m.riverPath }

/-- `HexMap.fromJSON`: re-adds every cell (rebuilding bounds) and restores
the river path (`data.riverPath || []`, with arrays truthy). -/
def HexMap.fromJSON (d : MapJSON) : HexMap :=
  let m := d.cells.foldl (fun (m : HexMap) cd => m.addCell (HexCell.fromJSON cd)) emptyHexMap
  { m with riverPath := d.riverPath }

/-- The document produced by `GameState.toJSON`. -/
structure GameStateJSON where
  id : Option String
  name : String
  createdAt : Option String
  updatedAt : Option String
  turn : ℕ
  currentPlayer : ℕ
  phase : GamePhase
  currentLevel : ℕ
  map : Option MapJSON
  units : List UnitJSON
  players : List Player
  selectedHex : Option Hex
  selectedUnit : Option String
  unitsToPlace : ℕ
  unitTypesToPlace : List String
  capturedCastles : List String
  enemyCastleKeys : List String
  totalCastles : ℕ
  turnLimit : ℕ
  turnsRemaining : ℤ
  earlyVictoryBonus : ℕ
  prestige : ℚ
  settings : Settings
  deriving DecidableEq, Repr

/-- `GameState.toJSON`. -/
def GameState.toJSON (s : GameState) : GameStateJSON :=
  { id := s.id, name := s.name, createdAt := s.createdAt, updatedAt := s.updatedAt
    turn := s.turn, currentPlayer := s.currentPlayer, phase := s.phase
    currentLevel := s.currentLevel
    map := s.map.map HexMap.toJSON
    units := s.units.map Unit.toJSON
    players := s.players
    selectedHex := s.selectedHex
    selectedUnit := s.selectedUnit
    unitsToPlace := s.unitsToPlace
    unitTypesToPlace := s.unitTypesToPlace
    capturedCastles := s.capturedCastles
    enemyCastleKeys := s.enemyCastleKeys
    totalCastles := s.totalCastles
    turnLimit := s.turnLimit
    turnsRemaining := s.turnsRemaining
    earlyVictoryBonus := s.earlyVictoryBonus
    prestige := s.prestige
    settings := s.settings }

/-- `GameState.fromJSON`.  The `?? d` fallbacks never fire on an emitted
document (all fields are present); `data.selectedUnit || null` falls back
to `null` on the empty string; the settings spread restores all three keys;
the visibility/movement-cost caches start empty (they are derived data). -/
def GameState.fromJSON (d : GameStateJSON) : GameState :=
  { id := d.id, name := d.name, createdAt := d.createdAt, updatedAt := d.updatedAt
    turn := d.turn, currentPlayer := d.currentPlayer, phase := d.phase
    map := d.map.map HexMap.fromJSON
    units := d.units.map Unit.fromJSON
    players := d.players
    selectedHex := d.selectedHex
    selectedUnit := jsOrNullStr d.selectedUnit
    unitsToPlace := d.unitsToPlace
    unitTypesToPlace := d.unitTypesToPlace
    capturedCastles := d.capturedCastles
    enemyCastleKeys := d.enemyCastleKeys
    totalCastles := d.totalCastles
    turnLimit := d.turnLimit
    turnsRemaining := d.turnsRemaining
    earlyVictoryBonus := d.earlyVictoryBonus
    prestige := d.prestige
    settings := d.settings
    currentLevel := d.currentLevel
    visibleHexes := [] }

/-! ### Claim C6: the JSON round-trip -/

/-- The unit fields the claim enumerates: id, typeId, playerId, hex,
strength, ammo, experience, entrenchment and the movement flags. -/
def unitSnapshot (u : Unit) :
    String × UnitTypeId × ℕ × Hex × ℚ × Option ℤ × ℚ × ℚ × ℚ × Bool × Bool :=
  (u.id, u.typeId, u.playerId, u.hex, u.strength, u.ammo, u.experience,
    u.entrenchment, u.movementRemaining, u.hasMoved, u.hasAttacked)

/-- The cell fields the claim enumerates: coordinate, terrain and edges. -/
def cellData (c : HexCell) : Hex × Terrain × List EdgeFeature :=
  (c.hex, c.terrain, c.edges)

/-- The claimed per-cell map data of an optional map. -/
def mapCellsData (m : Option HexMap) : Option (List (Hex × Terrain × List EdgeFeature)) :=
  m.map (fun mm => mm.cells.map cellData)

/-- `x || 0` is the identity on numbers (0 maps to 0). -/
theorem jsOrZero_eq (x : ℚ) : jsOrZero x = x := by
  rw [jsOrZero]; split_ifs with h
  · exact h.symm
  · rfl

/-- `x || 0` is the identity on non-negative integers. -/
theorem jsOrZeroNat_eq (n : ℕ) : jsOrZeroNat n = n := by
  rw [jsOrZeroNat]; split_ifs with h
  · exact h.symm
  · rfl

/-- The unit round-trip preserves every claimed unit field. -/
theorem unit_roundtrip (u : Unit) :
    unitSnapshot (Unit.fromJSON (Unit.toJSON u)) = unitSnapshot u := by
  simp only [unitSnapshot, Unit.fromJSON, Unit.toJSON, mkUnit, jsOrZero_eq,
    Bool.or_false]

/-- The cell round-trip preserves every claimed cell field. -/
theorem cell_roundtrip (c : HexCell) :
    cellData (HexCell.fromJSON (HexCell.toJSON c)) = cellData c := rfl

/-- The hex of a round-tripped cell is the original hex. -/
theorem cell_roundtrip_hex (c : HexCell) :
    (HexCell.fromJSON (HexCell.toJSON c)).hex = c.hex := rfl

/-- Folding `addCell` over hex-distinct cells reproduces the cell list. -/
theorem foldl_addCell_cells (todo : List HexCell) :
    ∀ (done : List HexCell) (b : Option Bounds) (rp : List RiverPathEntry),
      ((done ++ todo).map (fun c => c.hex)).Nodup →
      (todo.foldl (fun (m : HexMap) c => m.addCell c)
        { cells := done, bounds := b, riverPath := rp }).cells = done ++ todo := by
  induction todo with
  | nil =>
    intro done b rp _
    simp
  | cons c rest ih =>
    intro done b rp hnd
    have hdisj : (done.map (fun x => x.hex)).Disjoint ((c :: rest).map (fun x => x.hex)) := by
      rw [List.map_append] at hnd
      exact List.disjoint_of_nodup_append hnd
    have hfresh : ¬ done.any (fun c0 => c0.hex = c.hex) = true := by
      intro hmem
      rcases List.any_eq_true.mp hmem with ⟨c0, hc0, heq⟩
      have h1 : c0.hex ∈ done.map (fun x => x.hex) := List.mem_map_of_mem _ hc0
      have h2 : c0.hex ∈ (c :: rest).map (fun x => x.hex) := by
        simp only [decide_eq_true_eq] at heq
        rw [heq]
        simp
      exact hdisj h1 h2
    have hstep :
        HexMap.addCell { cells := done, bounds := b, riverPath := rp } c =
          { cells := done ++ [c], bounds := some (HexMap.updateBounds b c.hex)
            riverPath := rp } := by
      rw [HexMap.addCell]
      simp only [if_neg hfresh]
    rw [List.foldl_cons, hstep]
    have hnd2 : (((done ++ [c]) ++ rest).map (fun x => x.hex)).Nodup := by
      rw [List.append_assoc, List.singleton_append]
      exact hnd
    rw [ih (done ++ [c]) (some (HexMap.updateBounds b c.hex)) rp hnd2]
    rw [List.append_assoc, List.singleton_append]

/-- The map round-trip preserves the claimed cell data and the river path,
provided the map's cells have distinct coordinates (a JS `Map` keyed by
`hex.key` guarantees this). -/
theorem map_roundtrip (m : HexMap)
    (hnd : (m.cells.map (fun c => c.hex)).Nodup) :
    (HexMap.fromJSON (HexMap.toJSON m)).cells.map cellData = m.cells.map cellData ∧
      (HexMap.fromJSON (HexMap.toJSON m)).riverPath = m.riverPath := by
  constructor
  · have h0 := foldl_addCell_cells
      (m.cells.map (fun c => HexCell.fromJSON (HexCell.toJSON c))) [] Option.none []
      (by
        simp only [List.nil_append, List.map_map]
        have hcomp :
            ((fun x => x.hex) ∘ fun c => HexCell.fromJSON (HexCell.toJSON c)) =
              fun c => c.hex := by
          funext c
          exact cell_roundtrip_hex c
        rw [hcomp]
        exact hnd)
    simp only [List.foldl_map, List.nil_append] at h0
    have hfold :
        (HexMap.fromJSON (HexMap.toJSON m)).cells =
          m.cells.map (fun c => HexCell.fromJSON (HexCell.toJSON c)) := by
      rw [HexMap.fromJSON, HexMap.toJSON]
      simp only [List.foldl_map]
      rw [show (emptyHexMap : HexMap) =
            { cells := [], bounds := Option.none, riverPath := [] } from rfl]
      exact h0
    rw [hfold, List.map_map]
    have hcomp2 :
        (cellData ∘ fun c => HexCell.fromJSON (HexCell.toJSON c)) = cellData := by
      funext c
      exact cell_roundtrip c
    rw [hcomp2]
  · rfl


/-- A game state whose selected-unit id is the empty string. -/
def emptyIdSelectionState : GameState :=
  { miniState [] 150 with selectedUnit := some "" }

/-- Claim C6 is false as stated: `data.selectedUnit || null` maps an
empty-string selected-unit id to `null`, so `fromJSON(toJSON(state))` does
not reproduce the selection state of a state whose selected-unit id is
`""`. -/
theorem C6_counterexample :
    emptyIdSelectionState.selectedUnit = some "" ∧
      (GameState.fromJSON (GameState.toJSON emptyIdSelectionState)).selectedUnit =
        Option.none ∧
      (GameState.fromJSON (GameState.toJSON emptyIdSelectionState)).selectedUnit ≠
        emptyIdSelectionState.selectedUnit := by
  refine ⟨rfl, rfl, ?_⟩
  intro h
  exact Option.noConfusion (h.symm.trans rfl)

/-- `x || null` is the identity away from the empty string. -/
theorem jsOrNullStr_eq (s : Option String) (h : s ≠ some "") : jsOrNullStr s = s := by
  match s with
  | Option.none => rfl
  | some v =>
    rw [jsOrNullStr]
    split_ifs with hv
    · exact absurd (by rw [hv]) h
    · rfl

/-- Claim C6, amended: `GameState.fromJSON(state.toJSON())` reproduces
every field the claim enumerates — identity, timestamps, turn bookkeeping,
phase, level, map cells (coordinates, terrain, edges) and river path, the
unit snapshots (id, typeId, playerId, hex, strength, ammo, experience,
entrenchment, movement flags), players, selection state, placement queue,
castle key lists, turn limit and turns remaining, prestige and settings —
provided the selected-unit id is not the empty string (JS `|| null` maps
`""` to `null`); map cells have distinct coordinates by construction (the
JS map is keyed by `hex.key`). -/
theorem C6_roundtrip (s : GameState)
    (hsel : s.selectedUnit ≠ some "")
    (hnd : ∀ m, s.map = some m → (m.cells.map (fun c => c.hex)).Nodup) :
    (GameState.fromJSON (GameState.toJSON s)).id = s.id ∧
    (GameState.fromJSON (GameState.toJSON s)).name = s.name ∧
    (GameState.fromJSON (GameState.toJSON s)).createdAt = s.createdAt ∧
    (GameState.fromJSON (GameState.toJSON s)).updatedAt = s.updatedAt ∧
    (GameState.fromJSON (GameState.toJSON s)).turn = s.turn ∧
    (GameState.fromJSON (GameState.toJSON s)).currentPlayer = s.currentPlayer ∧
    (GameState.fromJSON (GameState.toJSON s)).phase = s.phase ∧
    (GameState.fromJSON (GameState.toJSON s)).currentLevel = s.currentLevel ∧
    mapCellsData (GameState.fromJSON (GameState.toJSON s)).map = mapCellsData s.map ∧
    (GameState.fromJSON (GameState.toJSON s)).map.map (fun m => m.riverPath) =
      s.map.map (fun m => m.riverPath) ∧
    (GameState.fromJSON (GameState.toJSON s)).units.map unitSnapshot =
      s.units.map unitSnapshot ∧
    (GameState.fromJSON (GameState.toJSON s)).players = s.players ∧
    (GameState.fromJSON (GameState.toJSON s)).selectedHex = s.selectedHex ∧
    (GameState.fromJSON (GameState.toJSON s)).selectedUnit = s.selectedUnit ∧
    (GameState.fromJSON (GameState.toJSON s)).unitsToPlace = s.unitsToPlace ∧
    (GameState.fromJSON (GameState.toJSON s)).unitTypesToPlace = s.unitTypesToPlace ∧
    (GameState.fromJSON (GameState.toJSON s)).capturedCastles = s.capturedCastles ∧
    (GameState.fromJSON (GameState.toJSON s)).enemyCastleKeys = s.enemyCastleKeys ∧
    (GameState.fromJSON (GameState.toJSON s)).totalCastles = s.totalCastles ∧
    (GameState.fromJSON (GameState.toJSON s)).turnLimit = s.turnLimit ∧
    (GameState.fromJSON (GameState.toJSON s)).turnsRemaining = s.turnsRemaining ∧
    (GameState.fromJSON (GameState.toJSON s)).earlyVictoryBonus = s.earlyVictoryBonus ∧
    (GameState.fromJSON (GameState.toJSON s)).prestige = s.prestige ∧
    (GameState.fromJSON (GameState.toJSON s)).settings = s.settings := by
  refine ⟨rfl, rfl, rfl, rfl, rfl, rfl, rfl, rfl, ?_, ?_, ?_, rfl, rfl, ?_, rfl, rfl,
    rfl, rfl, rfl, rfl, rfl, rfl, rfl, rfl⟩
  · rw [mapCellsData, mapCellsData]
    cases hm : s.map with
    | none => simp [GameState.fromJSON, GameState.toJSON, hm]
    | some mm =>
      simp only [GameState.fromJSON, GameState.toJSON, hm]
      simp only [Option.map_some, Option.map]
      rw [(map_roundtrip mm (hnd mm hm)).1]
  · cases hm : s.map with
    | none => simp [GameState.fromJSON, GameState.toJSON, hm]
    | some mm =>
      simp only [GameState.fromJSON, GameState.toJSON, hm]
      simp only [Option.map_some, Option.map]
      rw [(map_roundtrip mm (hnd mm hm)).2]
  · show List.map unitSnapshot (List.map Unit.fromJSON (List.map Unit.toJSON s.units)) =
      List.map unitSnapshot s.units
    rw [List.map_map, List.map_map]
    have hcomp :
        ((unitSnapshot ∘ Unit.fromJSON) ∘ Unit.toJSON) = unitSnapshot := by
      funext u
      exact unit_roundtrip u
    rw [hcomp]
  · show jsOrNullStr s.selectedUnit = s.selectedUnit
    exact jsOrNullStr_eq s.selectedUnit hsel

/-- A concrete saved game: one unit, a two-cell map with a road edge and a
river-path entry, a selected hex. -/
def sampleSavedState : GameState :=
  { miniState [lonelyOwnUnit] 120 with
      id := some "game-1"
      createdAt := some "2025-01-01T00:00:00Z"
      updatedAt := some "2025-01-02T00:00:00Z"
      selectedHex := some hexA
      map := some
        { cells :=
            [{ mkHexCell hexA Terrain.grass with
                 edges := [EdgeFeature.road, EdgeFeature.none, EdgeFeature.none,
                   EdgeFeature.none, EdgeFeature.none, EdgeFeature.none] },
             mkHexCell hexB Terrain.river]
          bounds := Option.none
          riverPath := [{ hex := hexB, cornerIndex := 2 }] } }

/-- Witness for the amended C6 at the concrete saved game. -/
theorem C6_witness :
    (GameState.fromJSON (GameState.toJSON sampleSavedState)).id = sampleSavedState.id ∧
    (GameState.fromJSON (GameState.toJSON sampleSavedState)).name = sampleSavedState.name ∧
    (GameState.fromJSON (GameState.toJSON sampleSavedState)).createdAt = sampleSavedState.createdAt ∧
    (GameState.fromJSON (GameState.toJSON sampleSavedState)).updatedAt = sampleSavedState.updatedAt ∧
    (GameState.fromJSON (GameState.toJSON sampleSavedState)).turn = sampleSavedState.turn ∧
    (GameState.fromJSON (GameState.toJSON sampleSavedState)).currentPlayer = sampleSavedState.currentPlayer ∧
    (GameState.fromJSON (GameState.toJSON sampleSavedState)).phase = sampleSavedState.phase ∧
    (GameState.fromJSON (GameState.toJSON sampleSavedState)).currentLevel = sampleSavedState.currentLevel ∧
    mapCellsData (GameState.fromJSON (GameState.toJSON sampleSavedState)).map =
      mapCellsData sampleSavedState.map ∧
    (GameState.fromJSON (GameState.toJSON sampleSavedState)).map.map (fun m => m.riverPath) =
      sampleSavedState.map.map (fun m => m.riverPath) ∧
    (GameState.fromJSON (GameState.toJSON sampleSavedState)).units.map unitSnapshot =
      sampleSavedState.units.map unitSnapshot ∧
    (GameState.fromJSON (GameState.toJSON sampleSavedState)).players = sampleSavedState.players ∧
    (GameState.fromJSON (GameState.toJSON sampleSavedState)).selectedHex = sampleSavedState.selectedHex ∧
    (GameState.fromJSON (GameState.toJSON sampleSavedState)).selectedUnit = sampleSavedState.selectedUnit ∧
    (GameState.fromJSON (GameState.toJSON sampleSavedState)).unitsToPlace = sampleSavedState.unitsToPlace ∧
    (GameState.fromJSON (GameState.toJSON sampleSavedState)).unitTypesToPlace = sampleSavedState.unitTypesToPlace ∧
    (GameState.fromJSON (GameState.toJSON sampleSavedState)).capturedCastles = sampleSavedState.capturedCastles ∧
    (GameState.fromJSON (GameState.toJSON sampleSavedState)).enemyCastleKeys = sampleSavedState.enemyCastleKeys ∧
    (GameState.fromJSON (GameState.toJSON sampleSavedState)).totalCastles = sampleSavedState.totalCastles ∧
    (GameState.fromJSON (GameState.toJSON sampleSavedState)).turnLimit = sampleSavedState.turnLimit ∧
    (GameState.fromJSON (GameState.toJSON sampleSavedState)).turnsRemaining = sampleSavedState.turnsRemaining ∧
    (GameState.fromJSON (GameState.toJSON sampleSavedState)).earlyVictoryBonus = sampleSavedState.earlyVictoryBonus ∧
    (GameState.fromJSON (GameState.toJSON sampleSavedState)).prestige = sampleSavedState.prestige ∧
    (GameState.fromJSON (GameState.toJSON sampleSavedState)).settings = sampleSavedState.settings :=
  C6_roundtrip sampleSavedState (by simp [sampleSavedState, miniState])
    (by
      intro m hm
      rw [sampleSavedState] at hm
      simp only [miniState, Option.some_inj] at hm
      rw [← hm]
      decide)


/-! ### Movement costs and the movement search (`src/unnamed/part_007`,
`GameState.getValidMovementHexes` in `src/js/core/gameState.js`) -/

/-- `getMovementCost(terrain, edgeFeature, remainingMovement)`: roads and
bridges always cost 1; a river hex without a bridge costs all remaining
movement; impassable terrain is `Infinity` (here `none`); otherwise the
terrain's base cost.  (The final fall-through reads the catalog cost, which
for the remaining terrains is always a finite number.) -/
def getMovementCost (terrain : Terrain) (edgeFeature : EdgeFeature)
    (remainingMovement : ℚ) : Option ℚ :=
  if edgeFeature = EdgeFeature.road ∨ edgeFeature = EdgeFeature.bridge then some 1
  else if terrain = Terrain.river then some remainingMovement
  else if terrainImpassable terrain = true then Option.none
  else
    match terrainMovementCost terrain with
    | TerrainMoveCost.cost c => some c
    | TerrainMoveCost.all => Option.none
    | TerrainMoveCost.infinite => Option.none

/-- `GameState.isHexPlayable(hex)`: inside the visual rectangle (`q < 20`,
visual row `q/2 + r` in `[0, 15)`). -/
def isHexPlayable (h : Hex) : Bool :=
  let vRow : ℚ := (h.q : ℚ) / 2 + (h.r : ℚ)
  decide (h.q < 20) && decide (0 ≤ vRow) && decide (vRow < 15)

/-- A frontier entry of the movement search. -/
structure SearchNode where
  hex : Hex
  cost : ℚ
  stoppedByZOC : Bool
  deriving DecidableEq, Repr

/-- The mutable state of the movement search: the `visited` map
(hex → cost, stopped flag), the BFS queue, and the reachable list. -/
structure SearchState where
  visited : List (Hex × ℚ × Bool)
  queue : List SearchNode
  reachable : List Hex
  deriving DecidableEq, Repr

/-- `visited.get(hex.key)`. -/
def visitedGet (v : List (Hex × ℚ × Bool)) (h : Hex) : Option (ℚ × Bool) :=
  (v.find? (fun p => p.1 = h)).map (fun p => p.2)

/-- `visited.set(hex.key, entry)`: replace an existing entry, else append. -/
def visitedSet (v : List (Hex × ℚ × Bool)) (h : Hex) (e : ℚ × Bool) :
    List (Hex × ℚ × Bool) :=
  if v.any (fun p => p.1 = h) then v.map (fun p => if p.1 = h then (h, e) else p)
  else v ++ [(h, e)]

/-- One iteration of the inner `for (let dir = 0; dir < 6; dir++)` loop of
`getValidMovementHexes`, processing `node`'s neighbor in direction `dir`.
A missing map or a missing cell for the node's own hex would make the JS
throw; those cases leave the state unchanged here. -/
def expandDir (gs : GameState) (unit : Unit) (node : SearchNode) (dir : Fin 6)
    (st : SearchState) : SearchState :=
  let neighbor := node.hex.neighbor dir
  if node.stoppedByZOC then
    match gs.getUnitAt neighbor with
    | some occ =>
      if occ.playerId ≠ gs.currentPlayer then
        let st1 :=
          match visitedGet st.visited neighbor with
          | Option.none =>
            { st with visited := visitedSet st.visited neighbor (node.cost + 1, true) }
          | some _ => st
        if st1.reachable.any (fun x => x = neighbor) then st1
        else { st1 with reachable := st1.reachable ++ [neighbor] }
      else st
    | Option.none => st
  else
    match gs.map with
    | Option.none => st
    | some map =>
      if map.hasCell neighbor = false then st
      else if isHexPlayable neighbor = false then st
      else
        match map.getCell neighbor, map.getCell node.hex with
        | some cell, some currentCell =>
          let terrain := cell.terrain
          let edgeFeature := currentCell.getEdge dir.val
          if terrain = Terrain.river ∧ edgeFeature ≠ EdgeFeature.bridge ∧ node.cost > 0 then
            st
          else
            match getMovementCost terrain edgeFeature (unit.movementRemaining - node.cost) with
            | Option.none => st
            | some moveCost =>
              let totalCost := node.cost + moveCost
              if totalCost > unit.movementRemaining then st
              else
                match gs.getUnitAt neighbor with
                | some occ =>
                  if occ.playerId = gs.currentPlayer then st
                  else
                    match visitedGet st.visited neighbor with
                    | some prev =>
                      if totalCost < prev.1 then
                        { st with
                            visited := visitedSet st.visited neighbor (totalCost, true)
                            reachable :=
                              if neighbor = unit.hex then st.reachable
                              else st.reachable ++ [neighbor] }
                      else st
                    | Option.none =>
                      { st with
                          visited := visitedSet st.visited neighbor (totalCost, true)
                          reachable :=
                            if neighbor = unit.hex then st.reachable
                            else st.reachable ++ [neighbor] }
                | Option.none =>
                  let entersZOC := gs.isInEnemyZOC neighbor
                  match visitedGet st.visited neighbor with
                  | some prev =>
                    if totalCost < prev.1 then
                      { visited := visitedSet st.visited neighbor (totalCost, entersZOC)
                        queue := st.queue ++
                          [{ hex := neighbor, cost := totalCost, stoppedByZOC := entersZOC }]
                        reachable :=
                          if neighbor = unit.hex then st.reachable
                          else st.reachable ++ [neighbor] }
                    else st
                  | Option.none =>
                    { visited := visitedSet st.visited neighbor (totalCost, entersZOC)
                      queue := st.queue ++
                        [{ hex := neighbor, cost := totalCost, stoppedByZOC := entersZOC }]
                      reachable :=
                        if neighbor = unit.hex then st.reachable
                        else st.reachable ++ [neighbor] }
        | _, _ => st

/-- Process one dequeued node: all six directions in order. -/
def expandNode (gs : GameState) (unit : Unit) (node : SearchNode)
    (st : SearchState) : SearchState :=
  (List.finRange 6).foldl (fun s dir => expandDir gs unit node dir s) st

/-- The `while (queue.length > 0)` loop, with explicit fuel to make the
recursion structural (the JS loop terminates because every relaxation
strictly lowers a non-negative cost; theorems quantify over the fuel). -/
def searchLoop (gs : GameState) (unit : Unit) : ℕ → SearchState → SearchState
  | 0, st => st
  | fuel + 1, st =>
    match st.queue with
    | [] => st
    | node :: rest =>
      searchLoop gs unit fuel (expandNode gs unit node { st with queue := rest })

/-- `GameState.getValidMovementHexes(unit)`: the reachable hexes and the
`_movementCosts` cache it leaves behind (as an association list). -/
def getValidMovementHexes (gs : GameState) (unit : Unit) (fuel : ℕ) :
    List Hex × List (Hex × ℚ) :=
  if unit.canMove = false then ([], [])
  else
    let st0 : SearchState :=
      { visited := [(unit.hex, 0, false)]
        queue := [{ hex := unit.hex, cost := 0, stoppedByZOC := false }]
        reachable := [] }
    let stF := searchLoop gs unit fuel st0
    (stF.reachable, stF.visited.map (fun p => (p.1, p.2.1)))


/-! ### Invariant lemmas for the movement search -/

/-- Every entry of `visitedSet v k e` is either the new entry or an old one. -/
theorem visitedSet_mem (v : List (Hex × ℚ × Bool)) (k : Hex) (e : ℚ × Bool)
    (p : Hex × ℚ × Bool) (hp : p ∈ visitedSet v k e) : p = (k, e) ∨ p ∈ v := by
  rw [visitedSet] at hp
  split_ifs at hp with hany
  · rcases List.mem_map.mp hp with ⟨q, hq, hqe⟩
    by_cases hk : q.1 = k
    · left; rw [← hqe, if_pos hk]
    · right; rw [← hqe, if_neg hk]; exact hq
  · rcases List.mem_append.mp hp with hin | hnew
    · right; exact hin
    · left; simpa using hnew

/-- Entries with a different key survive `visitedSet` unchanged. -/
theorem visitedSet_mem_of_ne (v : List (Hex × ℚ × Bool)) (k : Hex) (e : ℚ × Bool)
    (p : Hex × ℚ × Bool) (hp : p ∈ v) (hne : p.1 ≠ k) : p ∈ visitedSet v k e := by
  rw [visitedSet]
  split_ifs with hany
  · exact List.mem_map.mpr ⟨p, hp, by rw [if_neg hne]⟩
  · exact List.mem_append_left _ hp

/-- `visitedSet` always leaves an entry under the written key. -/
theorem visitedSet_self (v : List (Hex × ℚ × Bool)) (k : Hex) (e : ℚ × Bool) :
    (k, e) ∈ visitedSet v k e := by
  rw [visitedSet]
  split_ifs with hany
  · rcases List.any_eq_true.mp hany with ⟨q, hq, hqk⟩
    simp only [decide_eq_true_eq] at hqk
    exact List.mem_map.mpr ⟨q, hq, by rw [if_pos hqk]⟩
  · exact List.mem_append_right _ (by simp)

/-- An existing key keeps some entry through `visitedSet`. -/
theorem visitedSet_exists_key (v : List (Hex × ℚ × Bool)) (k : Hex) (e : ℚ × Bool)
    (x : Hex) (hx : ∃ e0, (x, e0) ∈ v) : ∃ e1, (x, e1) ∈ visitedSet v k e := by
  by_cases hk : x = k
  · exact ⟨e, hk ▸ visitedSet_self v k e⟩
  · rcases hx with ⟨e0, he0⟩
    exact ⟨e0, visitedSet_mem_of_ne v k e (x, e0) he0 (by simpa using hk)⟩

/-- A successful `visitedGet` names an entry of the list. -/
theorem visitedGet_mem (v : List (Hex × ℚ × Bool)) (x : Hex) (e : ℚ × Bool)
    (hget : visitedGet v x = some e) : (x, e) ∈ v := by
  rw [visitedGet] at hget
  cases hfind : v.find? (fun p => p.1 = x) with
  | none => rw [hfind] at hget; exact Option.noConfusion hget
  | some p =>
    rw [hfind] at hget
    have hp := List.mem_of_find?_eq_some hfind
    have hkey := List.find?_some hfind
    simp only [decide_eq_true_eq] at hkey
    simp at hget
    have hpe : p = (x, e) := by
      rcases p with ⟨p1, p2⟩
      rw [Prod.mk.injEq]
      exact ⟨hkey, hget⟩
    rw [← hpe]
    exact hp

/-- The invariant of the movement search around an unoccupied river hex
`rh` reachable only over plain (non-road, non-bridge) edges: every visited
entry for `rh` carries the full remaining movement as its cost; queue
entries have non-negative cost, with cost 0 only at the start hex; and if
`rh` is reachable it has a visited entry and is adjacent to the start. -/
def RiverInv (unit : Unit) (rh : Hex) (st : SearchState) : Prop :=
  (∀ p ∈ st.visited, p.1 = rh → p.2.1 = unit.movementRemaining) ∧
  (∀ n ∈ st.queue, 0 ≤ n.cost ∧ (n.cost = 0 → n.hex = unit.hex)) ∧
  (rh ∈ st.reachable →
    (∃ e, (rh, e) ∈ st.visited) ∧ ∃ d : Fin 6, unit.hex.neighbor d = rh)

/-- A finite movement cost is 1, 2, or (river over a plain edge) the whole
remaining movement. -/
theorem getMovementCost_cases (t : Terrain) (e : EdgeFeature) (r c : ℚ)
    (hmc : getMovementCost t e r = some c) :
    c = 1 ∨ c = 2 ∨ (t = Terrain.river ∧ e ≠ EdgeFeature.road ∧
      e ≠ EdgeFeature.bridge ∧ c = r) := by
  cases t <;> cases e <;>
    simp_all [getMovementCost, terrainMovementCost, terrainImpassable]


/-- A successful `getCell` returns a stored cell with the looked-up hex. -/
theorem getCell_mem (m : HexMap) (x : Hex) (c : HexCell)
    (hc : m.getCell x = some c) : c ∈ m.cells ∧ c.hex = x := by
  rw [HexMap.getCell] at hc
  refine ⟨List.mem_of_find?_eq_some hc, ?_⟩
  have := List.find?_some hc
  simpa using this

/-- One direction step of the movement search preserves `RiverInv`. -/
theorem expandDir_inv (gs : GameState) (unit : Unit) (m : HexMap) (rh : Hex)
    (hmap : gs.map = some m)
    (hterr : ∀ hc, m.getCell rh = some hc → hc.terrain = Terrain.river)
    (hunocc : gs.getUnitAt rh = Option.none)
    (hedges : ∀ c ∈ m.cells, ∀ d : Fin 6, c.hex.neighbor d = rh →
        c.getEdge d.val ≠ EdgeFeature.road ∧ c.getEdge d.val ≠ EdgeFeature.bridge)
    (_hne : rh ≠ unit.hex)
    (hmove : 0 < unit.movementRemaining)
    (node : SearchNode) (dir : Fin 6) (st : SearchState)
    (hnode : 0 ≤ node.cost ∧ (node.cost = 0 → node.hex = unit.hex))
    (hinv : RiverInv unit rh st) :
    RiverInv unit rh (expandDir gs unit node dir st) := by
  obtain ⟨hv, hq, hr⟩ := hinv
  simp only [expandDir, hmap]
  by_cases hstop : node.stoppedByZOC = true
  · rw [if_pos hstop]
    cases hocc : gs.getUnitAt (node.hex.neighbor dir) with
    | none => exact ⟨hv, hq, hr⟩
    | some occ =>
      have hnb : node.hex.neighbor dir ≠ rh := by
        intro he
        rw [he, hunocc] at hocc
        exact Option.noConfusion hocc
      dsimp only
      by_cases hop : occ.playerId ≠ gs.currentPlayer
      · rw [if_pos hop]
        cases hvg : visitedGet st.visited (node.hex.neighbor dir) with
        | none =>
          dsimp only
          have hv1 : ∀ p ∈ visitedSet st.visited (node.hex.neighbor dir)
              (node.cost + 1, true), p.1 = rh → p.2.1 = unit.movementRemaining := by
            intro p hp hkey
            rcases visitedSet_mem _ _ _ _ hp with hnew | hold
            · rw [hnew] at hkey
              exact absurd hkey hnb
            · exact hv p hold hkey
          have hex1 : rh ∈ st.reachable →
              (∃ e, (rh, e) ∈ visitedSet st.visited (node.hex.neighbor dir)
                (node.cost + 1, true)) ∧ ∃ d : Fin 6, unit.hex.neighbor d = rh := by
            intro hin
            exact ⟨visitedSet_exists_key _ _ _ rh (hr hin).1, (hr hin).2⟩
          by_cases hany : (st.reachable.any (fun x => x = node.hex.neighbor dir)) = true
          · rw [if_pos hany]
            exact ⟨hv1, hq, hex1⟩
          · rw [if_neg hany]
            refine ⟨hv1, hq, ?_⟩
            intro hin
            rcases List.mem_append.mp hin with hold | hnew
            · exact hex1 hold
            · simp only [List.mem_singleton] at hnew
              exact absurd hnew.symm hnb
        | some prev =>
          dsimp only
          by_cases hany : (st.reachable.any (fun x => x = node.hex.neighbor dir)) = true
          · rw [if_pos hany]
            exact ⟨hv, hq, hr⟩
          · rw [if_neg hany]
            refine ⟨hv, hq, ?_⟩
            intro hin
            rcases List.mem_append.mp hin with hold | hnew
            · exact hr hold
            · simp only [List.mem_singleton] at hnew
              exact absurd hnew.symm hnb
      · rw [if_neg hop]
        exact ⟨hv, hq, hr⟩
  · rw [if_neg hstop]
    by_cases hcellb : m.hasCell (node.hex.neighbor dir) = false
    · rw [if_pos hcellb]
      exact ⟨hv, hq, hr⟩
    · rw [if_neg hcellb]
      by_cases hplay : isHexPlayable (node.hex.neighbor dir) = false
      · rw [if_pos hplay]
        exact ⟨hv, hq, hr⟩
      · rw [if_neg hplay]
        cases hcell : m.getCell (node.hex.neighbor dir) with
        | none => exact ⟨hv, hq, hr⟩
        | some cell =>
          cases hcur : m.getCell node.hex with
          | none => exact ⟨hv, hq, hr⟩
          | some currentCell =>
            dsimp only
            by_cases hguard : cell.terrain = Terrain.river ∧
                currentCell.getEdge dir.val ≠ EdgeFeature.bridge ∧ node.cost > 0
            · rw [if_pos hguard]
              exact ⟨hv, hq, hr⟩
            · rw [if_neg hguard]
              cases hmc : getMovementCost cell.terrain (currentCell.getEdge dir.val)
                  (unit.movementRemaining - node.cost) with
              | none => exact ⟨hv, hq, hr⟩
              | some moveCost =>
                dsimp only
                by_cases hbig : node.cost + moveCost > unit.movementRemaining
                · rw [if_pos hbig]
                  exact ⟨hv, hq, hr⟩
                · rw [if_neg hbig]
                  have hcurmem := getCell_mem m node.hex currentCell hcur
                  have htot : node.hex.neighbor dir = rh →
                      node.cost = 0 ∧ node.cost + moveCost = unit.movementRemaining ∧
                        node.hex = unit.hex := by
                    intro hrh
                    have hriver : cell.terrain = Terrain.river := by
                      apply hterr
                      rw [← hrh]
                      exact hcell
                    have hedge := hedges currentCell hcurmem.1 dir
                      (by rw [hcurmem.2]; exact hrh)
                    have hc0 : node.cost = 0 := by
                      by_contra hc0
                      exact hguard ⟨hriver, hedge.2, lt_of_le_of_ne hnode.1
                        (fun he => hc0 he.symm)⟩
                    have hmv : moveCost = unit.movementRemaining - node.cost := by
                      rw [getMovementCost, if_neg (by
                          intro hre
                          rcases hre with hre | hre
                          · exact hedge.1 hre
                          · exact hedge.2 hre),
                        if_pos hriver] at hmc
                      exact (Option.some_inj.mp hmc).symm
                    refine ⟨hc0, by rw [hmv]; ring, hnode.2 hc0⟩
                  have htotpos : node.hex.neighbor dir ≠ rh →
                      0 < node.cost + moveCost := by
                    intro hnrh
                    rcases getMovementCost_cases _ _ _ _ hmc with h1 | h2 | h3
                    · rw [h1]; linarith [hnode.1]
                    · rw [h2]; linarith [hnode.1]
                    · obtain ⟨hriver2, hroad2, hbridge2, hval⟩ := h3
                      have hc0 : node.cost = 0 := by
                        by_contra hc0
                        exact hguard ⟨hriver2, hbridge2, lt_of_le_of_ne hnode.1
                          (fun he => hc0 he.symm)⟩
                      rw [hval, hc0]
                      simpa using hmove
                  cases hocc : gs.getUnitAt (node.hex.neighbor dir) with
                  | some occ =>
                    dsimp only
                    have hnb : node.hex.neighbor dir ≠ rh := by
                      intro he
                      rw [he, hunocc] at hocc
                      exact Option.noConfusion hocc
                    by_cases hop : occ.playerId = gs.currentPlayer
                    · rw [if_pos hop]
                      exact ⟨hv, hq, hr⟩
                    · rw [if_neg hop]
                      have hv1 : ∀ p ∈ visitedSet st.visited (node.hex.neighbor dir)
                          (node.cost + moveCost, true), p.1 = rh →
                          p.2.1 = unit.movementRemaining := by
                        intro p hp hkey
                        rcases visitedSet_mem _ _ _ _ hp with hnew | hold
                        · rw [hnew] at hkey
                          exact absurd hkey hnb
                        · exact hv p hold hkey
                      have hr1 : rh ∈ (if node.hex.neighbor dir = unit.hex
                            then st.reachable
                            else st.reachable ++ [node.hex.neighbor dir]) →
                          (∃ e, (rh, e) ∈ visitedSet st.visited (node.hex.neighbor dir)
                            (node.cost + moveCost, true)) ∧
                            ∃ d : Fin 6, unit.hex.neighbor d = rh := by
                        intro hin
                        have hold : rh ∈ st.reachable := by
                          by_cases hsame : node.hex.neighbor dir = unit.hex
                          · rw [if_pos hsame] at hin; exact hin
                          · rw [if_neg hsame] at hin
                            rcases List.mem_append.mp hin with hthere | hone
                            · exact hthere
                            · simp only [List.mem_singleton] at hone
                              exact absurd hone.symm hnb
                        exact ⟨visitedSet_exists_key _ _ _ rh (hr hold).1, (hr hold).2⟩
                      cases hvg : visitedGet st.visited (node.hex.neighbor dir) with
                      | some prev =>
                        dsimp only
                        by_cases himp : node.cost + moveCost < prev.1
                        · rw [if_pos himp]
                          exact ⟨hv1, hq, hr1⟩
                        · rw [if_neg himp]
                          exact ⟨hv, hq, hr⟩
                      | none =>
                        dsimp only
                        exact ⟨hv1, hq, hr1⟩
                  | none =>
                    dsimp only
                    have hqnew : ∀ n ∈ st.queue ++
                        [{ hex := node.hex.neighbor dir, cost := node.cost + moveCost
                           stoppedByZOC := gs.isInEnemyZOC (node.hex.neighbor dir) }],
                        0 ≤ n.cost ∧ (n.cost = 0 → n.hex = unit.hex) := by
                      intro n hn
                      rcases List.mem_append.mp hn with hold | hnew
                      · exact hq n hold
                      · simp only [List.mem_singleton] at hnew
                        rw [hnew]
                        by_cases hrhc : node.hex.neighbor dir = rh
                        · obtain ⟨hc0, htc, hstart⟩ := htot hrhc
                          constructor
                          · simp only
                            rw [htc]
                            exact hmove.le
                          · intro hzero
                            simp only at hzero
                            rw [htc] at hzero
                            exact absurd hzero (ne_of_gt hmove)
                        · have hpos := htotpos hrhc
                          exact ⟨by simpa using hpos.le,
                            fun hzero => absurd (by simpa using hzero)
                              (ne_of_gt hpos)⟩
                    have hvnew : ∀ p ∈ visitedSet st.visited (node.hex.neighbor dir)
                        (node.cost + moveCost, gs.isInEnemyZOC (node.hex.neighbor dir)),
                        p.1 = rh → p.2.1 = unit.movementRemaining := by
                      intro p hp hkey
                      rcases visitedSet_mem _ _ _ _ hp with hnew | hold
                      · rw [hnew] at hkey ⊢
                        simp only at hkey ⊢
                        obtain ⟨hc0, htc, hstart⟩ := htot hkey
                        exact htc
                      · exact hv p hold hkey
                    have hrnew : rh ∈ (if node.hex.neighbor dir = unit.hex
                          then st.reachable
                          else st.reachable ++ [node.hex.neighbor dir]) →
                        (∃ e, (rh, e) ∈ visitedSet st.visited (node.hex.neighbor dir)
                          (node.cost + moveCost, gs.isInEnemyZOC (node.hex.neighbor dir))) ∧
                          ∃ d : Fin 6, unit.hex.neighbor d = rh := by
                      intro hin
                      by_cases hrhc : node.hex.neighbor dir = rh
                      · obtain ⟨hc0, htc, hstart⟩ := htot hrhc
                        refine ⟨⟨(node.cost + moveCost,
                            gs.isInEnemyZOC (node.hex.neighbor dir)), ?_⟩, ?_⟩
                        · rw [← hrhc]
                          exact visitedSet_self _ _ _
                        · exact ⟨dir, by rw [← hstart]; exact hrhc⟩
                      · have hold : rh ∈ st.reachable := by
                          by_cases hsame : node.hex.neighbor dir = unit.hex
                          · rw [if_pos hsame] at hin; exact hin
                          · rw [if_neg hsame] at hin
                            rcases List.mem_append.mp hin with hthere | hone
                            · exact hthere
                            · simp only [List.mem_singleton] at hone
                              exact absurd hone.symm hrhc
                        exact ⟨visitedSet_exists_key _ _ _ rh (hr hold).1, (hr hold).2⟩
                    cases hvg : visitedGet st.visited (node.hex.neighbor dir) with
                    | some prev =>
                      dsimp only
                      by_cases himp : node.cost + moveCost < prev.1
                      · rw [if_pos himp]
                        exact ⟨hvnew, hqnew, hrnew⟩
                      · rw [if_neg himp]
                        exact ⟨hv, hq, hr⟩
                    | none =>
                      dsimp only
                      exact ⟨hvnew, hqnew, hrnew⟩


/-- Processing a dequeued node (all six directions) preserves `RiverInv`. -/
theorem expandNode_inv (gs : GameState) (unit : Unit) (m : HexMap) (rh : Hex)
    (hmap : gs.map = some m)
    (hterr : ∀ hc, m.getCell rh = some hc → hc.terrain = Terrain.river)
    (hunocc : gs.getUnitAt rh = Option.none)
    (hedges : ∀ c ∈ m.cells, ∀ d : Fin 6, c.hex.neighbor d = rh →
        c.getEdge d.val ≠ EdgeFeature.road ∧ c.getEdge d.val ≠ EdgeFeature.bridge)
    (hne : rh ≠ unit.hex)
    (hmove : 0 < unit.movementRemaining)
    (node : SearchNode) (st : SearchState)
    (hnode : 0 ≤ node.cost ∧ (node.cost = 0 → node.hex = unit.hex))
    (hinv : RiverInv unit rh st) :
    RiverInv unit rh (expandNode gs unit node st) := by
  rw [expandNode]
  have hgen : ∀ (l : List (Fin 6)) (st0 : SearchState), RiverInv unit rh st0 →
      RiverInv unit rh (l.foldl (fun s dir => expandDir gs unit node dir s) st0) := by
    intro l
    induction l with
    | nil => intro st0 h0; exact h0
    | cons d rest ih =>
      intro st0 h0
      rw [List.foldl_cons]
      exact ih _ (expandDir_inv gs unit m rh hmap hterr hunocc hedges hne hmove
        node d st0 hnode h0)
  exact hgen _ st hinv

/-- The whole search loop preserves `RiverInv`, for any amount of fuel. -/
theorem searchLoop_inv (gs : GameState) (unit : Unit) (m : HexMap) (rh : Hex)
    (hmap : gs.map = some m)
    (hterr : ∀ hc, m.getCell rh = some hc → hc.terrain = Terrain.river)
    (hunocc : gs.getUnitAt rh = Option.none)
    (hedges : ∀ c ∈ m.cells, ∀ d : Fin 6, c.hex.neighbor d = rh →
        c.getEdge d.val ≠ EdgeFeature.road ∧ c.getEdge d.val ≠ EdgeFeature.bridge)
    (hne : rh ≠ unit.hex)
    (hmove : 0 < unit.movementRemaining) :
    ∀ (fuel : ℕ) (st : SearchState), RiverInv unit rh st →
      RiverInv unit rh (searchLoop gs unit fuel st) := by
  intro fuel
  induction fuel with
  | zero => intro st hinv; exact hinv
  | succ f ih =>
    intro st hinv
    rw [searchLoop]
    cases hqueue : st.queue with
    | nil => exact hinv
    | cons node rest =>
      apply ih
      have hnode := hinv.2.1 node (by rw [hqueue]; simp)
      apply expandNode_inv gs unit m rh hmap hterr hunocc hedges hne hmove node _
        hnode
      refine ⟨hinv.1, ?_, hinv.2.2⟩
      intro n hn
      exact hinv.2.1 n (by rw [hqueue]; simp only [List.mem_cons]; right; exact hn)


/-- `find?` by key commutes with projecting the cost out of the entries. -/
theorem find?_costs (v : List (Hex × ℚ × Bool)) (x : Hex) (q : Hex × ℚ × Bool)
    (hfind : v.find? (fun p => p.1 = x) = some q) :
    (v.map (fun p => (p.1, p.2.1))).find? (fun p => p.1 = x) = some (q.1, q.2.1) := by
  induction v with
  | nil => exact Option.noConfusion hfind
  | cons p rest ih =>
    by_cases hp : p.1 = x
    · rw [List.find?_cons_of_pos _ (by simpa using hp)] at hfind
      rw [List.map_cons, List.find?_cons_of_pos _ (by simpa using hp)]
      rw [Option.some_inj.mp hfind]
    · rw [List.find?_cons_of_neg _ (by simpa using hp)] at hfind
      rw [List.map_cons, List.find?_cons_of_neg _ (by simpa using hp)]
      exact ih hfind

/-- Claim C4, amended: roads and bridges always cost exactly 1 regardless
of terrain (so a road edge into a river hex costs 1, not the remaining
movement); a river hex behind a plain (non-road, non-bridge) edge costs the
unit's entire remaining movement; a unit that has already moved this turn
reaches no hex at all; and whenever an unoccupied river hex, all of whose
incoming edges are plain, is reachable, it was entered as the very first
step of the search (it is adjacent to the start hex) and its cached
movement cost equals the unit's entire remaining movement. -/
theorem C4_river_movement (gs : GameState) (unit : Unit) (m : HexMap) (rh : Hex)
    (hmap : gs.map = some m)
    (hcell : ∃ hc, m.getCell rh = some hc ∧ hc.terrain = Terrain.river)
    (hunocc : gs.getUnitAt rh = Option.none)
    (hedges : ∀ c ∈ m.cells, ∀ d : Fin 6, c.hex.neighbor d = rh →
        c.getEdge d.val ≠ EdgeFeature.road ∧ c.getEdge d.val ≠ EdgeFeature.bridge)
    (hne : rh ≠ unit.hex)
    (hmove : 0 < unit.movementRemaining) :
    (∀ t r, getMovementCost t EdgeFeature.road r = some 1 ∧
        getMovementCost t EdgeFeature.bridge r = some 1) ∧
    (∀ r, getMovementCost Terrain.river EdgeFeature.none r = some r ∧
        getMovementCost Terrain.river EdgeFeature.river r = some r) ∧
    (∀ fuel, unit.hasMoved = true → getValidMovementHexes gs unit fuel = ([], [])) ∧
    (∀ fuel, rh ∈ (getValidMovementHexes gs unit fuel).1 →
      (∃ d : Fin 6, unit.hex.neighbor d = rh) ∧
        ((getValidMovementHexes gs unit fuel).2.find? (fun p => p.1 = rh)).map
          (fun p => p.2) = some unit.movementRemaining) := by
  have hterr : ∀ hc, m.getCell rh = some hc → hc.terrain = Terrain.river := by
    intro hc hhc
    rcases hcell with ⟨hc0, hhc0, hr0⟩
    rw [hhc0] at hhc
    rw [← Option.some_inj.mp hhc]
    exact hr0
  refine ⟨?_, ?_, ?_, ?_⟩
  · intro t r
    constructor
    · rw [getMovementCost, if_pos (Or.inl rfl)]
    · rw [getMovementCost, if_pos (Or.inr rfl)]
  · intro r
    constructor
    · rw [getMovementCost, if_neg (by simp), if_pos rfl]
    · rw [getMovementCost, if_neg (by simp), if_pos rfl]
  · intro fuel hmoved
    rw [getValidMovementHexes, if_pos (by simp [Unit.canMove, hmoved])]
  · intro fuel hreach
    by_cases hcm : unit.canMove = false
    · rw [getValidMovementHexes, if_pos hcm] at hreach
      exact absurd hreach (List.not_mem_nil rh)
    · have hinv0 : RiverInv unit rh
          { visited := [(unit.hex, 0, false)]
            queue := [{ hex := unit.hex, cost := 0, stoppedByZOC := false }]
            reachable := [] } := by
        refine ⟨?_, ?_, ?_⟩
        · intro p hp hkey
          simp only [List.mem_singleton] at hp
          rw [hp] at hkey
          exact absurd hkey.symm hne
        · intro n hn
          simp only [List.mem_singleton] at hn
          rw [hn]
          exact ⟨le_refl 0, fun _ => rfl⟩
        · intro hin
          exact absurd hin (List.not_mem_nil rh)
      have hinvF := searchLoop_inv gs unit m rh hmap hterr hunocc hedges hne hmove
        fuel _ hinv0
      rw [getValidMovementHexes, if_neg hcm] at hreach ⊢
      have hpart3 := hinvF.2.2 hreach
      refine ⟨hpart3.2, ?_⟩
      rcases hpart3.1 with ⟨e, hmem⟩
      have hsome : (List.find? (fun p => p.1 = rh)
          (searchLoop gs unit fuel
            { visited := [(unit.hex, 0, false)]
              queue := [{ hex := unit.hex, cost := 0, stoppedByZOC := false }]
              reachable := [] }).visited).isSome := by
        rw [List.find?_isSome]
        exact ⟨(rh, e), hmem, by simp⟩
      obtain ⟨q, hq⟩ := Option.isSome_iff_exists.mp hsome
      have hqmem := List.mem_of_find?_eq_some hq
      have hqkey : q.1 = rh := by
        have := List.find?_some hq
        simpa using this
      have hqcost := hinvF.1 q hqmem hqkey
      rw [find?_costs _ _ _ hq]
      show some (q.1, q.2.1).2 = some unit.movementRemaining
      rw [Option.some_inj]
      exact hqcost


/-- Claim C4 is false as stated: a river hex reached over a *road* edge (a
non-bridge edge) costs 1, not the unit's entire remaining movement — the
road/bridge override is checked before the river rule in
`getMovementCost`. -/
theorem C4_counterexample :
    getMovementCost Terrain.river EdgeFeature.road 3 = some 1 ∧
      getMovementCost Terrain.river EdgeFeature.road 3 ≠ some 3 := by
  constructor
  · rw [getMovementCost, if_pos (Or.inl rfl)]
  · rw [getMovementCost, if_pos (Or.inl rfl)]
    intro hcon
    have h1 := Option.some_inj.mp hcon
    norm_num at h1

/-- A fresh infantry scout of player 0 at `hexA` (full movement 3). -/
def riverScoutUnit : Unit := mkUnit "scout" UnitTypeId.infantry 0 hexA

/-- A two-cell map: grass at `hexA`, river at `hexB`, all edges plain. -/
def twoCellRiverMap : HexMap :=
  { cells := [mkHexCell hexA Terrain.grass, mkHexCell hexB Terrain.river]
    bounds := Option.none
    riverPath := [] }

/-- The movement scenario state: the scout alone on the two-cell map. -/
def riverScenState : GameState :=
  { miniState [riverScoutUnit] 150 with map := some twoCellRiverMap }

/-- Witness for the amended C4 on the concrete two-cell river scenario. -/
theorem C4_witness :
    (∀ t r, getMovementCost t EdgeFeature.road r = some 1 ∧
        getMovementCost t EdgeFeature.bridge r = some 1) ∧
    (∀ r, getMovementCost Terrain.river EdgeFeature.none r = some r ∧
        getMovementCost Terrain.river EdgeFeature.river r = some r) ∧
    (∀ fuel, riverScoutUnit.hasMoved = true →
        getValidMovementHexes riverScenState riverScoutUnit fuel = ([], [])) ∧
    (∀ fuel, hexB ∈ (getValidMovementHexes riverScenState riverScoutUnit fuel).1 →
      (∃ d : Fin 6, riverScoutUnit.hex.neighbor d = hexB) ∧
        ((getValidMovementHexes riverScenState riverScoutUnit fuel).2.find?
            (fun p => p.1 = hexB)).map (fun p => p.2) =
          some riverScoutUnit.movementRemaining) :=
  C4_river_movement riverScenState riverScoutUnit twoCellRiverMap hexB
    rfl
    ⟨mkHexCell hexB Terrain.river, by decide, rfl⟩
    (by decide)
    (by decide)
    (by decide)
    (by norm_num [riverScoutUnit, mkUnit, Unit.getType, getUnitType])

end PuddyGeneral
